import Mathlib

/-!
Verification development for the UQRCODE persistence layer.

The TypeScript sources embedded here:
- `src/lib/qrCodeFirestore.ts` (class `QRCodeFirestore`): remote store client.
- `src/unnamed/part_002` (class `QRCodeStorage`): fallback read/write chain
  over the remote client and the localStorage cache.
- `src/lib/scanTracker.ts` (class `ScanTracker`) and
  `src/lib/scanEventStorage.ts` (class `ScanEventStorage`): scan tracking.

Modelling conventions:
- ISO timestamp strings become `Nat` instants.
- The remote `qr_codes` collection holds documents in their serialized form
  (`StoredDoc`): `saveQRCode` writes `toFirestoreFormat` + `removeUndefined`
  output, whose `Timestamp` instances are flattened into plain maps
  (`Timestamp` is not `instanceof Date`, so `removeUndefined` recurses into
  it) — `StoredTs.blob`; `updateQRCode` writes genuine `Timestamp` instances
  without a `removeUndefined` pass — `StoredTs.ts`. `convertTimestamp` can
  parse only the latter and falls through to `new Date().toISOString()` —
  the READ instant — on a flattened map, so reads take a `readNow`
  parameter (the instant of the call containing the read).
  `toFirestoreFormat` also coerces falsy optionals: `description || null`
  turns an EMPTY string into null; `tags || null` keeps any array (arrays
  are truthy, even `[]`). JS `null` and `undefined` are both modelled as
  `none`.
- `localStorage` holds JSON strings; since every stored value is produced by
  `JSON.stringify` and read back with `JSON.parse`, a key is modelled as
  holding the parsed value directly (an association list keyed by the
  localStorage key).
- Remote unreachability is a flag in the world state: when it is down every
  Firestore call rejects (`Except.error ()`), mirroring a thrown exception
  before any server-side mutation.
- `generateId()` (`qr_${Date.now()}_${random}`) is an external impure supply;
  each operation that generates ids takes them as parameters (a fresh-id
  argument or a generator `Nat → String`).
-/

set_option autoImplicit false

namespace UQRCODE

/-- `QRType` from `components/qr/types`:
`'url' | 'location' | 'email' | 'phone' | 'wifi' | 'event' | 'vcard' | 'crypto' | 'text' | 'document'`. -/
inductive QRType where
  | url | location | email | phone | wifi | event | vcard | crypto | text | document
  deriving DecidableEq, Repr

/-- The TS string literal of a `QRType`, used where the source interpolates
`code.type` into a string. -/
def QRType.toStr : QRType → String
  | .url => "url"
  | .location => "location"
  | .email => "email"
  | .phone => "phone"
  | .wifi => "wifi"
  | .event => "event"
  | .vcard => "vcard"
  | .crypto => "crypto"
  | .text => "text"
  | .document => "document"

/-- `QRConfig` is rendering configuration that the persistence layer passes
through without inspecting (style, error correction, gradient, ...); it is
modelled as an opaque record with decidable equality. -/
structure QRConfig where
  blob : String
  deriving DecidableEq, Repr

/-- `SavedQRCode` from `part_002` (`qrStorage.ts`). Timestamps are `Nat`;
optional fields are `Option`. -/
structure SavedQRCode where
  id : String
  name : String
  type : QRType
  data : String
  config : QRConfig
  fgColor : String
  bgColor : String
  createdAt : Nat
  updatedAt : Nat
  isActive : Bool
  userId : String
  downloadCount : Nat
  scanCount : Nat
  lastAccessed : Option Nat
  lastScanned : Option Nat
  tags : Option (List String)
  description : Option String
  deriving DecidableEq, Repr

/-- The argument type of `saveQRCode`:
`Omit<SavedQRCode, 'id' | 'createdAt' | 'updatedAt' | 'downloadCount' | 'scanCount'>`.
`isActive` is `Option Bool` because call sites may pass it absent and the
source applies `qrCode.isActive ?? true`. `lastAccessed`/`lastScanned` are
never passed by any caller and are omitted. -/
structure QRDraft where
  name : String
  type : QRType
  data : String
  config : QRConfig
  fgColor : String
  bgColor : String
  userId : String
  isActive : Option Bool
  tags : Option (List String)
  description : Option String
  deriving DecidableEq, Repr

/-- `ScanEvent` from `scanTracker.ts`. -/
structure ScanEvent where
  qrCodeId : String
  userId : String
  timestamp : Nat
  userAgent : Option String
  referrer : Option String
  ipAddress : Option String
  documentId : Option String
  deriving DecidableEq, Repr

/-- `QRCodeStats` from `part_002` (`qrStorage.ts`). -/
structure QRCodeStats where
  totalCodes : Nat
  activeCodes : Nat
  inactiveCodes : Nat
  totalDownloads : Nat
  totalScans : Nat
  mostUsedType : QRType
  mostScannedCode : Option SavedQRCode
  recentCodes : List SavedQRCode
  deriving DecidableEq, Repr

/-- A timestamp value inside a stored Firestore document. `saveQRCode`'s
`setDoc` path runs `removeUndefined` over `toFirestoreFormat`'s output;
`Timestamp` is not `instanceof Date`, so `removeUndefined` recurses into it
and flattens it into a plain `{seconds, nanoseconds}` map (`blob` — the
instant is still inside the map, but `convertTimestamp` cannot parse it).
`updateQRCode` passes `Timestamp.fromDate(...)` instances directly to
`updateDoc` with no `removeUndefined` pass, so those survive as genuine
timestamps (`ts`), which `convertTimestamp` parses. -/
inductive StoredTs where
  | blob (instant : Nat)
  | ts (instant : Nat)
  deriving DecidableEq, Repr

/-- A document of the `qr_codes` collection as actually stored: the shape
produced by `toFirestoreFormat` + `removeUndefined` (see `StoredTs`;
`tags`/`description` already `|| null`-coerced), later mutated in place by
`updateDoc` merges. -/
structure StoredDoc where
  id : String
  name : String
  type : QRType
  data : String
  config : QRConfig
  fgColor : String
  bgColor : String
  createdAt : StoredTs
  updatedAt : StoredTs
  isActive : Bool
  userId : String
  downloadCount : Nat
  scanCount : Nat
  lastAccessed : Option StoredTs
  lastScanned : Option StoredTs
  tags : Option (List String)
  description : Option String
  deriving DecidableEq, Repr

/-- `toFirestoreFormat` (qrCodeFirestore.ts 63-77) combined with the
`removeUndefined` pass applied before `setDoc` (114): timestamps become
`Timestamp` instances that `removeUndefined` flattens into plain maps
(`StoredTs.blob`); `lastAccessed`/`lastScanned` become such maps when
present and `null` otherwise; `tags || null` keeps any array (arrays are
truthy, even the empty one) and maps an absent value to null;
`description || null` coerces BOTH an absent and an empty-string
description to null. -/
def toFirestoreFormat (c : SavedQRCode) : StoredDoc :=
  { id := c.id
    name := c.name
    type := c.type
    data := c.data
    config := c.config
    fgColor := c.fgColor
    bgColor := c.bgColor
    createdAt := StoredTs.blob c.createdAt
    updatedAt := StoredTs.blob c.updatedAt
    isActive := c.isActive
    userId := c.userId
    downloadCount := c.downloadCount
    scanCount := c.scanCount
    lastAccessed := c.lastAccessed.map StoredTs.blob
    lastScanned := c.lastScanned.map StoredTs.blob
    tags := c.tags
    description :=
      match c.description with
      | some s => if s = "" then none else some s
      | none => none }

/-- `convertTimestamp` (qrCodeFirestore.ts 25-36) at read instant `readNow`:
a genuine `Timestamp` has `toDate` and parses to its instant; a flattened
plain map has no `toDate`, is not `instanceof Timestamp` and not a string,
so the function falls through to `new Date().toISOString()` — the instant
of the read. -/
def convertTimestamp (t : StoredTs) (readNow : Nat) : Nat :=
  match t with
  | StoredTs.blob _ => readNow
  | StoredTs.ts n => n

/-- `fromFirestoreFormat` (qrCodeFirestore.ts 82-92) at read instant
`readNow`: spread the stored data, convert `createdAt`/`updatedAt` through
`convertTimestamp`, and map `lastAccessed`/`lastScanned` to `undefined`
when stored null (falsy) and through `convertTimestamp` otherwise. -/
def fromFirestoreFormat (d : StoredDoc) (readNow : Nat) : SavedQRCode :=
  { id := d.id
    name := d.name
    type := d.type
    data := d.data
    config := d.config
    fgColor := d.fgColor
    bgColor := d.bgColor
    createdAt := convertTimestamp d.createdAt readNow
    updatedAt := convertTimestamp d.updatedAt readNow
    isActive := d.isActive
    userId := d.userId
    downloadCount := d.downloadCount
    scanCount := d.scanCount
    lastAccessed := d.lastAccessed.map (fun t => convertTimestamp t readNow)
    lastScanned := d.lastScanned.map (fun t => convertTimestamp t readNow)
    tags := d.tags
    description := d.description }

/-- World state threaded through every operation: the Firestore `qr_codes`
collection (serialized documents), the Firestore `scan_events` collection,
localStorage (split by key family), the in-memory
`QRCodeStorage.firestoreCache` map, and reachability flags for the two
remote collections. -/
structure World where
  remoteUp : Bool
  eventRemoteUp : Bool
  remote : List StoredDoc
  remoteEvents : List ScanEvent
  localQR : List (String × List SavedQRCode)
  localEvents : List (String × List ScanEvent)
  firestoreCache : List (String × List SavedQRCode)
  deriving DecidableEq, Repr

/-- `localStorage.getItem` (plus `JSON.parse`): association-list lookup. -/
def lookupKey {α : Type} (l : List (String × α)) (k : String) : Option α :=
  (l.find? (fun p => p.1 == k)).map Prod.snd

/-- `localStorage.setItem` (plus `JSON.stringify`): replace the value under a
key, appending the key if absent. -/
def setKey {α : Type} (l : List (String × α)) (k : String) (v : α) : List (String × α) :=
  if l.any (fun p => p.1 == k) then
    l.map (fun p => if p.1 == k then (k, v) else p)
  else
    l ++ [(k, v)]

/-- `localStorage.removeItem`. -/
def removeKey {α : Type} (l : List (String × α)) (k : String) : List (String × α) :=
  l.filter (fun p => p.1 != k)

/-- Firestore `setDoc(doc(db, coll, id), d)`: overwrite the document with
that id, creating it if absent. -/
def putDoc (l : List StoredDoc) (c : StoredDoc) : List StoredDoc :=
  if l.any (fun d => d.id == c.id) then
    l.map (fun d => if d.id == c.id then c else d)
  else
    l ++ [c]

/-- Firestore `getDoc` by document id. -/
def getDoc (l : List StoredDoc) (id : String) : Option StoredDoc :=
  l.find? (fun d => d.id == id)

/-- A `Partial<SavedQRCode>` as actually used by the callers in the claims:
the update objects passed by `toggleQRCodeStatus`, `incrementDownloadCount`
and `incrementScanCount`. An absent field is left unchanged by the merge. -/
structure QRUpdate where
  isActive : Option Bool := none
  downloadCount : Option Nat := none
  scanCount : Option Nat := none
  lastAccessed : Option Nat := none
  lastScanned : Option Nat := none
  deriving DecidableEq, Repr

/-- The localStorage fallback merge of `QRCodeStorage.updateQRCode`
(part_002 173-177): `{...codes[index], ...updates, updatedAt: now}` on the
cached plain entity. -/
def applyUpdate (c : SavedQRCode) (u : QRUpdate) (now : Nat) : SavedQRCode :=
  { c with
    isActive := u.isActive.getD c.isActive
    downloadCount := u.downloadCount.getD c.downloadCount
    scanCount := u.scanCount.getD c.scanCount
    lastAccessed := (u.lastAccessed.map some).getD c.lastAccessed
    lastScanned := (u.lastScanned.map some).getD c.lastScanned
    updatedAt := now }

/-- Firestore `updateDoc` merge semantics in `QRCodeFirestore.updateQRCode`
(248-269): plain fields merge in, `updatedAt` is unconditionally restamped
with `Timestamp.fromDate(new Date())`, and present `lastAccessed`/
`lastScanned` values are converted to `Timestamp` instances — all genuine
timestamps (`StoredTs.ts`), since `updateQRCode` has no `removeUndefined`
pass. -/
def applyUpdateStored (d : StoredDoc) (u : QRUpdate) (now : Nat) : StoredDoc :=
  { d with
    isActive := u.isActive.getD d.isActive
    downloadCount := u.downloadCount.getD d.downloadCount
    scanCount := u.scanCount.getD d.scanCount
    lastAccessed := (u.lastAccessed.map (fun n => some (StoredTs.ts n))).getD d.lastAccessed
    lastScanned := (u.lastScanned.map (fun n => some (StoredTs.ts n))).getD d.lastScanned
    updatedAt := StoredTs.ts now }

/-- Builds the entity saved by `QRCodeFirestore.saveQRCode` (and by the
localStorage fallback branch of `QRCodeStorage.saveQRCode`, which constructs
the identical object): fresh id, `createdAt = updatedAt = now`, zeroed
counters, `isActive ?? true`. -/
def mkSavedQRCode (draft : QRDraft) (freshId : String) (now : Nat) : SavedQRCode :=
  { id := freshId
    name := draft.name
    type := draft.type
    data := draft.data
    config := draft.config
    fgColor := draft.fgColor
    bgColor := draft.bgColor
    createdAt := now
    updatedAt := now
    isActive := draft.isActive.getD true
    userId := draft.userId
    downloadCount := 0
    scanCount := 0
    lastAccessed := none
    lastScanned := none
    tags := draft.tags
    description := draft.description }

/-- Insert a code into a descending-by-`updatedAt` list, after every element
whose `updatedAt` is greater or equal (so an element inserted later never
jumps ahead of an equal-key element inserted earlier). -/
def insertByUpdatedDesc (acc : List SavedQRCode) (c : SavedQRCode) : List SavedQRCode :=
  match acc with
  | [] => [c]
  | d :: rest =>
      if d.updatedAt < c.updatedAt then c :: d :: rest
      else d :: insertByUpdatedDesc rest c

/-- Stable sort by `updatedAt` descending: the JS
`codes.sort((a, b) => dateB - dateA)`. Array.prototype.sort is stable, and a
stable sort by a total preorder is unique, so it is modelled by stable
left-to-right insertion. -/
def sortByUpdatedDesc (l : List SavedQRCode) : List SavedQRCode :=
  l.foldl insertByUpdatedDesc []

namespace QRCodeFirestore

/-- `QRCodeFirestore.saveQRCode` (qrCodeFirestore.ts 98-121): builds the
entity with a generated id, `createdAt = updatedAt = now`, zeroed counters,
`isActive ?? true`, `setDoc`s its `toFirestoreFormat` serialization, and
returns the PRE-serialization entity. On transport failure `setDoc`
rejects before any server-side mutation and the catch rethrows. -/
def saveQRCode (w : World) (draft : QRDraft) (freshId : String) (now : Nat) :
    Except Unit (SavedQRCode × World) :=
  if w.remoteUp then
    let saved := mkSavedQRCode draft freshId now
    Except.ok (saved, { w with remote := putDoc w.remote (toFirestoreFormat saved) })
  else
    Except.error ()

/-- `QRCodeFirestore.getQRCode` (211-225) at read instant `readNow`:
`getDoc` then `fromFirestoreFormat`, `null` when missing; rethrows
transport errors. -/
def getQRCode (w : World) (qrCodeId : String) (readNow : Nat) :
    Except Unit (Option SavedQRCode) :=
  if w.remoteUp then
    Except.ok ((getDoc w.remote qrCodeId).map (fun d => fromFirestoreFormat d readNow))
  else
    Except.error ()

/-- `QRCodeFirestore.getUserQRCodes` (126-152) at read instant `readNow`:
query by `userId`, deserialize each document through `fromFirestoreFormat`,
sort by (converted) `updatedAt` descending; rethrows transport errors. -/
def getUserQRCodes (w : World) (userId : String) (readNow : Nat) :
    Except Unit (List SavedQRCode) :=
  if w.remoteUp then
    Except.ok (sortByUpdatedDesc
      ((w.remote.filter (fun d => d.userId == userId)).map
        (fun d => fromFirestoreFormat d readNow)))
  else
    Except.error ()

/-- `QRCodeFirestore.updateQRCode` (248-269): `updateDoc` merge with fresh
`updatedAt` (see `applyUpdateStored`); `updateDoc` rejects when the document
is absent (NotFound), and transport errors rethrow. -/
def updateQRCode (w : World) (qrCodeId : String) (u : QRUpdate) (now : Nat) :
    Except Unit World :=
  if w.remoteUp then
    match getDoc w.remote qrCodeId with
    | none => Except.error ()
    | some _ =>
        Except.ok { w with
          remote := w.remote.map (fun d =>
            if d.id == qrCodeId then applyUpdateStored d u now else d) }
  else
    Except.error ()

/-- `QRCodeFirestore.toggleQRCodeStatus` (287-302): read the code (`false`
when absent), then update `isActive := !isActive` and stamp `lastAccessed`;
any error yields `false` with no further effect. -/
def toggleQRCodeStatus (w : World) (qrCodeId : String) (now : Nat) : Bool × World :=
  match getQRCode w qrCodeId now with
  | Except.error () => (false, w)
  | Except.ok none => (false, w)
  | Except.ok (some code) =>
      match updateQRCode w qrCodeId
          { isActive := some (!code.isActive), lastAccessed := some now } now with
      | Except.error () => (false, w)
      | Except.ok w1 => (true, w1)

/-- `QRCodeFirestore.incrementDownloadCount` (307-322). -/
def incrementDownloadCount (w : World) (qrCodeId : String) (now : Nat) : Bool × World :=
  match getQRCode w qrCodeId now with
  | Except.error () => (false, w)
  | Except.ok none => (false, w)
  | Except.ok (some code) =>
      match updateQRCode w qrCodeId
          { downloadCount := some (code.downloadCount + 1), lastAccessed := some now } now with
      | Except.error () => (false, w)
      | Except.ok w1 => (true, w1)

/-- `QRCodeFirestore.incrementScanCount` (327-343): read-modify-write
`scanCount + 1` stamping `lastScanned`/`lastAccessed`; `false` when the code
is absent or on any error. -/
def incrementScanCount (w : World) (qrCodeId : String) (now : Nat) : Bool × World :=
  match getQRCode w qrCodeId now with
  | Except.error () => (false, w)
  | Except.ok none => (false, w)
  | Except.ok (some code) =>
      match updateQRCode w qrCodeId
          { scanCount := some (code.scanCount + 1), lastScanned := some now,
            lastAccessed := some now } now with
      | Except.error () => (false, w)
      | Except.ok w1 => (true, w1)

end QRCodeFirestore

/-- `acc[code.type] = (acc[code.type] || 0) + 1` over a JS object: an
existing key keeps its position, a new key is appended (object insertion
order), so the table lists distinct types in order of first occurrence. -/
def bumpType : List (QRType × Nat) → QRType → List (QRType × Nat)
  | [], t => [(t, 1)]
  | (t', n) :: rest, t =>
      if t' = t then (t', n + 1) :: rest else (t', n) :: bumpType rest t

/-- The `typeCounts` reduce of `getQRCodeStats`. -/
def typeCounts (codes : List SavedQRCode) : List (QRType × Nat) :=
  codes.foldl (fun acc c => bumpType acc c.type) []

/-- The body of the `reduce((a, b) => typeCounts[a[0]] > typeCounts[b[0]] ? a : b)`
comparator: keep the running entry only when its count is strictly greater,
otherwise move to the later entry. -/
def pickMax {α : Type} (a b : α × Nat) : α × Nat :=
  if a.2 > b.2 then a else b

/-- The `mostUsedType` computation of `getQRCodeStats`:
`Object.entries(typeCounts).reduce((a, b) => typeCounts[a[0]] > typeCounts[b[0]] ? a : b)[0]`,
defaulting to `'url'` for an empty table. -/
def mostUsedType (codes : List SavedQRCode) : QRType :=
  match typeCounts codes with
  | [] => QRType.url
  | e :: es => (es.foldl pickMax e).1

/-- The `mostScannedCode` reduce of `getQRCodeStats`:
`codes.reduce((max, code) => code.scanCount > (max?.scanCount || 0) ? code : max, null)`. -/
def mostScannedCode (codes : List SavedQRCode) : Option SavedQRCode :=
  codes.foldl
    (fun m c => if c.scanCount > (m.map SavedQRCode.scanCount).getD 0 then some c else m)
    none

/-- The zero/default stats record returned for an empty list and by the
catch branch of `getQRCodeStats`. -/
def emptyStats : QRCodeStats :=
  { totalCodes := 0
    activeCodes := 0
    inactiveCodes := 0
    totalDownloads := 0
    totalScans := 0
    mostUsedType := QRType.url
    mostScannedCode := none
    recentCodes := [] }

/-- The stats aggregation shared verbatim by `QRCodeFirestore.getQRCodeStats`
(qrCodeFirestore.ts 348-399) and the localStorage fallback of
`QRCodeStorage.getQRCodeStats` (part_002 279-329): early zero return for an
empty list, active/inactive partition, counter sums, `mostUsedType`,
`mostScannedCode`, and the 5 most recently updated codes. -/
def computeStats (codes : List SavedQRCode) : QRCodeStats :=
  if codes.length = 0 then emptyStats
  else
    { totalCodes := codes.length
      activeCodes := (codes.filter (fun c => c.isActive)).length
      inactiveCodes := (codes.filter (fun c => !c.isActive)).length
      totalDownloads := codes.foldl (fun s c => s + c.downloadCount) 0
      totalScans := codes.foldl (fun s c => s + c.scanCount) 0
      mostUsedType := mostUsedType codes
      mostScannedCode := mostScannedCode codes
      recentCodes := (sortByUpdatedDesc codes).take 5 }

namespace QRCodeFirestore

/-- `QRCodeFirestore.getQRCodeStats` (348-413) at read instant `readNow`:
stats over the user's (deserialized) codes; the catch branch returns the
zero record, so a failed read yields `emptyStats`. -/
def getQRCodeStats (w : World) (userId : String) (readNow : Nat) : QRCodeStats :=
  match getUserQRCodes w userId readNow with
  | Except.error () => emptyStats
  | Except.ok codes => computeStats codes

/-- The draft `migrateFromLocalStorage` passes to `saveQRCode` for each
cached code (qrCodeFirestore.ts 437-448): content fields only — the id,
timestamps and counters are regenerated by `saveQRCode`. -/
def draftOfCode (code : SavedQRCode) : QRDraft :=
  { name := code.name
    type := code.type
    data := code.data
    config := code.config
    fgColor := code.fgColor
    bgColor := code.bgColor
    userId := code.userId
    isActive := some code.isActive
    tags := code.tags
    description := code.description }

/-- The migration loop of `migrateFromLocalStorage` (434-453): each cached
code whose id is not among the remote ids is saved with a freshly generated
id (`idGen k` supplies the k-th generated id); a failed save is skipped and
the loop continues. -/
def migrateLoop (w : World) (codes : List SavedQRCode) (existingIds : List String)
    (idGen : Nat → String) (k : Nat) (now : Nat) : World :=
  match codes with
  | [] => w
  | c :: rest =>
      if existingIds.contains c.id then
        migrateLoop w rest existingIds idGen k now
      else
        match saveQRCode w (draftOfCode c) (idGen k) now with
        | Except.ok (_, w1) => migrateLoop w1 rest existingIds idGen (k + 1) now
        | Except.error () => migrateLoop w rest existingIds idGen (k + 1) now

/-- `QRCodeFirestore.migrateFromLocalStorage` (418-461): read the cached
array for the user (return when absent), diff against the current remote id
set, save every code whose id is not yet remote, then remove the
localStorage key. The outer catch swallows every uncaught error (e.g. the
remote id-set read failing), in which case the key is NOT removed. -/
def migrateFromLocalStorage (w : World) (userId : String) (idGen : Nat → String)
    (now : Nat) : World :=
  match lookupKey w.localQR ("qr_codes_" ++ userId) with
  | none => w
  | some codes =>
      match getUserQRCodes w userId now with
      | Except.error () => w
      | Except.ok existingCodes =>
          let existingIds := existingCodes.map (fun c => c.id)
          let w1 := migrateLoop w codes existingIds idGen 0 now
          { w1 with localQR := removeKey w1.localQR ("qr_codes_" ++ userId) }

end QRCodeFirestore

namespace QRCodeStorage

/-- `QRCodeStorage.getUserQRCodesLocal` (part_002 140-143): parse the
`qr_codes_<userId>` key, `[]` when absent. -/
def getUserQRCodesLocal (w : World) (userId : String) : List SavedQRCode :=
  (lookupKey w.localQR ("qr_codes_" ++ userId)).getD []

/-- The catch branch of `QRCodeStorage.saveQRCode` (part_002 65-89): generate
a local id, build the entity with `createdAt = updatedAt = now` and zeroed
counters, append it to the user's cached array. -/
def saveLocalFallback (w : World) (draft : QRDraft) (localId : String) (now : Nat) :
    SavedQRCode × World :=
  let saved := mkSavedQRCode draft localId now
  let existingCodes := getUserQRCodesLocal w draft.userId
  (saved,
    { w with localQR := setKey w.localQR ("qr_codes_" ++ draft.userId) (existingCodes ++ [saved]) })

/-- `QRCodeStorage.saveQRCode` (part_002 43-91): save through Firestore,
verify by reading the id back (throwing when the read-back is empty), mirror
the entity into the localStorage backup when its id is not already cached;
on any failure fall back to a localStorage-only save with a second generated
id. `remoteId` and `localId` are the ids generated by the Firestore and the
fallback `generateId()` calls respectively. -/
def saveQRCode (w : World) (draft : QRDraft) (remoteId localId : String) (now : Nat) :
    SavedQRCode × World :=
  match QRCodeFirestore.saveQRCode w draft remoteId now with
  | Except.error () => saveLocalFallback w draft localId now
  | Except.ok (saved, w1) =>
      match QRCodeFirestore.getQRCode w1 saved.id now with
      | Except.error () => saveLocalFallback w1 draft localId now
      | Except.ok none => saveLocalFallback w1 draft localId now
      | Except.ok (some _) =>
          let existingCodes := getUserQRCodesLocal w1 draft.userId
          if existingCodes.any (fun c => c.id == saved.id) then (saved, w1)
          else
            (saved,
              { w1 with
                localQR := setKey w1.localQR ("qr_codes_" ++ draft.userId)
                  (existingCodes ++ [saved]) })

/-- `QRCodeStorage.getUserQRCodes` (part_002 97-135): read Firestore, merge
against the localStorage backup, migrating any localStorage-only ids and
re-fetching; on remote failure return the localStorage contents (the
fire-and-forget migration attempt then runs with its errors swallowed). -/
def getUserQRCodes (w : World) (userId : String) (idGen : Nat → String) (now : Nat) :
    List SavedQRCode × World :=
  match QRCodeFirestore.getUserQRCodes w userId now with
  | Except.error () =>
      let localCodes := getUserQRCodesLocal w userId
      let w1 := QRCodeFirestore.migrateFromLocalStorage w userId idGen now
      (localCodes, w1)
  | Except.ok firestoreCodes =>
      let localCodes := getUserQRCodesLocal w userId
      let firestoreIds := firestoreCodes.map (fun c => c.id)
      let localOnlyCodes := localCodes.filter (fun c => !firestoreIds.contains c.id)
      if localOnlyCodes.length > 0 then
        let w1 := QRCodeFirestore.migrateFromLocalStorage w userId idGen now
        match QRCodeFirestore.getUserQRCodes w1 userId now with
        | Except.ok updatedFirestoreCodes =>
            (updatedFirestoreCodes,
              { w1 with firestoreCache := setKey w1.firestoreCache userId updatedFirestoreCodes })
        | Except.error () =>
            let lc := getUserQRCodesLocal w1 userId
            let w2 := QRCodeFirestore.migrateFromLocalStorage w1 userId idGen now
            (lc, w2)
      else
        let w1 := QRCodeFirestore.migrateFromLocalStorage w userId idGen now
        (firestoreCodes, { w1 with firestoreCache := setKey w1.firestoreCache userId firestoreCodes })

/-- `QRCodeStorage.getQRCode` (part_002 148-156) at read instant `now`:
Firestore read, falling back to a scan of the user's localStorage array. -/
def getQRCode (w : World) (userId qrCodeId : String) (now : Nat) : Option SavedQRCode :=
  match QRCodeFirestore.getQRCode w qrCodeId now with
  | Except.ok r => r
  | Except.error () => (getUserQRCodesLocal w userId).find? (fun c => c.id == qrCodeId)

/-- Replace the first code with the given id (the `findIndex` +
`codes[index] = {...}` fallback of `QRCodeStorage.updateQRCode`); `none` when
the id is absent (`index === -1`). -/
def updateFirstLocal (codes : List SavedQRCode) (qrCodeId : String) (u : QRUpdate)
    (now : Nat) : Option (List SavedQRCode) :=
  match codes with
  | [] => none
  | c :: rest =>
      if c.id == qrCodeId then some (applyUpdate c u now :: rest)
      else (updateFirstLocal rest qrCodeId u now).map (fun l => c :: l)

/-- `QRCodeStorage.updateQRCode` (part_002 161-186): Firestore update
returning `true`; on failure update the cached array in place (restamping
`updatedAt`), `false` when the id is not cached. -/
def updateQRCode (w : World) (userId qrCodeId : String) (u : QRUpdate) (now : Nat) :
    Bool × World :=
  match QRCodeFirestore.updateQRCode w qrCodeId u now with
  | Except.ok w1 => (true, w1)
  | Except.error () =>
      match updateFirstLocal (getUserQRCodesLocal w userId) qrCodeId u now with
      | none => (false, w)
      | some codes1 =>
          (true, { w with localQR := setKey w.localQR ("qr_codes_" ++ userId) codes1 })

/-- `QRCodeStorage.toggleQRCodeStatus` (part_002 215-229): delegates to
`QRCodeFirestore.toggleQRCodeStatus`. The surrounding try/catch with a
localStorage fallback is dead code: the Firestore method catches internally
and resolves to a boolean, never rejecting, so the embedding is the
delegation itself. -/
def toggleQRCodeStatus (w : World) (userId qrCodeId : String) (now : Nat) : Bool × World :=
  QRCodeFirestore.toggleQRCodeStatus w qrCodeId now

/-- `QRCodeStorage.incrementScanCount` (part_002 253-268): delegates to
`QRCodeFirestore.incrementScanCount`; as with `toggleQRCodeStatus`, the
catch-side localStorage fallback is unreachable because the Firestore method
never rejects. -/
def incrementScanCount (w : World) (userId qrCodeId : String) (now : Nat) : Bool × World :=
  QRCodeFirestore.incrementScanCount w qrCodeId now

/-- `QRCodeStorage.getQRCodeStats` (part_002 273-330): Firestore stats
(which already degrade to `emptyStats` internally); the catch branch
recomputes the same aggregation over the localStorage array and is
unreachable because `QRCodeFirestore.getQRCodeStats` never rejects. -/
def getQRCodeStats (w : World) (userId : String) (now : Nat) : QRCodeStats :=
  QRCodeFirestore.getQRCodeStats w userId now

end QRCodeStorage

namespace ScanEventStorage

/-- `ScanEventStorage.saveScanEvent` (scanEventStorage.ts 52-73): write the
event document into the `scan_events` collection under a generated id
(modelled as an append); rethrows transport errors. The extra stored
`createdAt: Timestamp.now()` field is server metadata never read back and is
not modelled. -/
def saveScanEvent (w : World) (e : ScanEvent) : Except Unit World :=
  if w.eventRemoteUp then
    Except.ok { w with remoteEvents := w.remoteEvents ++ [e] }
  else
    Except.error ()

end ScanEventStorage

namespace ScanTracker

/-- `ScanTracker.getScanEventsLocal` (scanTracker.ts 78-91) with no
`qrCodeId` filter: parse the `qr_scan_events_<userId>` key, `[]` when
absent. -/
def getScanEventsLocalAll (w : World) (userId : String) : List ScanEvent :=
  (lookupKey w.localEvents ("qr_scan_events_" ++ userId)).getD []

/-- `ScanTracker.storeScanEvent` (scanTracker.ts 162-172): append the event
to the user's local array and keep only the last 1000 entries
(`updated.slice(-1000)` — the oldest entries are evicted first). -/
def storeScanEvent (w : World) (e : ScanEvent) : World :=
  let existing := getScanEventsLocalAll w e.userId
  let updated := existing ++ [e]
  let trimmed := updated.drop (updated.length - 1000)
  { w with localEvents := setKey w.localEvents ("qr_scan_events_" ++ e.userId) trimmed }

/-- The `ScanEvent` built by `trackScan` (scanTracker.ts 31-38) in an
environment without `navigator`/`document` context and with no
`additionalData`. -/
def mkScanEvent (qrCodeId userId : String) (now : Nat) : ScanEvent :=
  { qrCodeId := qrCodeId
    userId := userId
    timestamp := now
    userAgent := none
    referrer := none
    ipAddress := none
    documentId := none }

/-- `ScanTracker.trackScan` (scanTracker.ts 20-54): increment the scan count
first — when that reports failure, return `false` without recording any
event; otherwise save the event to Firestore, falling back to the local ring
buffer when that write rejects, and return `true`. -/
def trackScan (w : World) (qrCodeId userId : String) (now : Nat) : Bool × World :=
  let inc := QRCodeStorage.incrementScanCount w userId qrCodeId now
  if !inc.1 then (false, inc.2)
  else
    let scanEvent := mkScanEvent qrCodeId userId now
    match ScanEventStorage.saveScanEvent inc.2 scanEvent with
    | Except.ok w2 => (true, w2)
    | Except.error () => (true, storeScanEvent inc.2 scanEvent)

/-- One step of a sequence of `trackScan` calls: thread the world and record
whether every call so far reported success. -/
def trackScanStep (qrCodeId userId : String) (acc : Bool × World) (t : Nat) : Bool × World :=
  let r := trackScan acc.2 qrCodeId userId t
  (acc.1 && r.1, r.2)

/-- N sequential `trackScan` calls for one id at the given instants,
returning whether all N calls succeeded together with the final world. -/
def trackScanAll (w : World) (qrCodeId userId : String) (times : List Nat) : Bool × World :=
  times.foldl (trackScanStep qrCodeId userId) (true, w)

end ScanTracker

/-- The `name|type|data` duplicate identifier of
`QRCodeStorage.importQRCodes` (part_002 383-396). -/
def identOf (name : String) (t : QRType) (data : String) : String :=
  name ++ "|" ++ t.toStr ++ "|" ++ data

/-- One entry of the JSON array handed to `importQRCodes`: parsed items may
miss required fields (`undefined`), and JS falsiness makes an empty string
fail the `!code.name` / `!code.data` checks too. -/
structure ImportItem where
  name : String
  type : Option QRType
  data : String
  config : Option QRConfig
  fgColor : String
  bgColor : String
  isActive : Option Bool
  tags : Option (List String)
  description : Option String
  deriving DecidableEq, Repr

/-- The validation failure message `Invalid QR code: ${code.name || 'Unknown'}`. -/
def invalidMsg (item : ImportItem) : String :=
  "Invalid QR code: " ++ (if item.name == "" then "Unknown" else item.name)

/-- The duplicate message `QR code "${code.name}" already exists and was skipped`. -/
def dupMsg (name : String) : String :=
  "QR code \"" ++ name ++ "\" already exists and was skipped"

namespace QRCodeStorage

/-- The per-item loop of `importQRCodes` (part_002 387-422): a missing or
falsy required field is collected as a validation error; a `name|type|data`
triple already present is collected as a duplicate error; otherwise the item
is saved (`saveQRCode` resolves even on remote failure, so the inner catch
never fires) and its identifier joins the duplicate set. `saveGen (2*k)` and
`saveGen (2*k+1)` supply the ids generated by the k-th save. -/
def importLoop (w : World) (items : List ImportItem) (existingIdents : List String)
    (userId : String) (saveGen : Nat → String) (k : Nat) (now : Nat)
    (succ : Nat) (errs : List String) : (Nat × List String) × World :=
  match items with
  | [] => ((succ, errs), w)
  | item :: rest =>
      match item.type, item.config with
      | some t, some cfg =>
          if item.name == "" || item.data == "" then
            importLoop w rest existingIdents userId saveGen k now succ (errs ++ [invalidMsg item])
          else
            let codeIdentifier := identOf item.name t item.data
            if existingIdents.contains codeIdentifier then
              importLoop w rest existingIdents userId saveGen k now succ
                (errs ++ [dupMsg item.name])
            else
              let draft : QRDraft :=
                { name := item.name
                  type := t
                  data := item.data
                  config := cfg
                  fgColor := item.fgColor
                  bgColor := item.bgColor
                  userId := userId
                  isActive := some (item.isActive.getD true)
                  tags := item.tags
                  description := item.description }
              let (_, w1) := saveQRCode w draft (saveGen (2 * k)) (saveGen (2 * k + 1)) now
              importLoop w1 rest (codeIdentifier :: existingIdents) userId saveGen (k + 1) now
                (succ + 1) errs
      | _, _ =>
          importLoop w rest existingIdents userId saveGen k now succ (errs ++ [invalidMsg item])

/-- `QRCodeStorage.importQRCodes` (part_002 374-428) on a successfully parsed
JSON array: read the user's current codes, build the `name|type|data`
duplicate set, then run the per-item loop, returning
`{success, errors}`. (`migGen` feeds the migration triggered by the initial
`getUserQRCodes`; `saveGen` feeds the ids of the saves in the loop.) -/
def importQRCodes (w : World) (userId : String) (items : List ImportItem)
    (migGen saveGen : Nat → String) (now : Nat) : (Nat × List String) × World :=
  let fetched := getUserQRCodes w userId migGen now
  let existingIdents := fetched.1.map (fun c => identOf c.name c.type c.data)
  importLoop fetched.2 items existingIdents userId saveGen 0 now 0 []

end QRCodeStorage

/-! ### Modelled spec predicate for the C4 comparison, and sample data -/

/-- Modelled from the spec: "the type with highest frequency (tie-break:
first type encountered while iterating in received order)" — the same
frequency table, but replacing the running entry only on a strictly greater
count, so a tie keeps the earlier entry. -/
def specMostUsedTypeFirstTie (codes : List SavedQRCode) : QRType :=
  match typeCounts codes with
  | [] => QRType.url
  | e :: es => (es.foldl (fun a b => if b.2 > a.2 then b else a) e).1

/-- First entry with the given type in the frequency table, `0` when the
type never occurs (`typeCounts[t] || 0`). -/
def tableCount (l : List (QRType × Nat)) (t : QRType) : Nat :=
  ((l.find? (fun p => p.1 == t)).map Prod.snd).getD 0

/-- The keys of a frequency table, in entry order. -/
def tableKeys (l : List (QRType × Nat)) : List QRType :=
  l.map Prod.fst

/-- A fixed opaque rendering configuration used by concrete examples. -/
def cfg0 : QRConfig := { blob := "cfg" }

/-- A concrete cached QR code owned by `u1` with id `A` and zeroed counters. -/
def code0 : SavedQRCode :=
  { id := "A"
    name := "my-link"
    type := QRType.url
    data := "https://example.com"
    config := cfg0
    fgColor := "#000000"
    bgColor := "#ffffff"
    createdAt := 1
    updatedAt := 1
    isActive := true
    userId := "u1"
    downloadCount := 0
    scanCount := 0
    lastAccessed := none
    lastScanned := none
    tags := none
    description := none }

/-- The Scenario-A draft: `{name:"biz-card", type:"vcard", data:"BEGIN:VCARD...", userId:"u1"}`. -/
def draft0 : QRDraft :=
  { name := "biz-card"
    type := QRType.vcard
    data := "BEGIN:VCARD..."
    config := cfg0
    fgColor := "#000000"
    bgColor := "#ffffff"
    userId := "u1"
    isActive := none
    tags := none
    description := none }

/-- `code0` as it sits in the remote store after a `saveQRCode` (serialized:
blob timestamps, coerced optionals). -/
def doc0 : StoredDoc := toFirestoreFormat code0

/-- The Scenario-A draft with an EMPTY string description — the `|| null`
coercion of `toFirestoreFormat` turns it into null on the way to the
store. -/
def draftEmptyDesc : QRDraft :=
  { name := "biz-card"
    type := QRType.vcard
    data := "BEGIN:VCARD..."
    config := cfg0
    fgColor := "#000000"
    bgColor := "#ffffff"
    userId := "u1"
    isActive := none
    tags := none
    description := some "" }

/-- The entity `saveQRCode` returns for `draftEmptyDesc` at instant 9 with
generated id `R`. -/
def savedEmptyDesc : SavedQRCode := mkSavedQRCode draftEmptyDesc "R" 9

/-- An empty world with both remote collections reachable. -/
def worldUp : World :=
  { remoteUp := true
    eventRemoteUp := true
    remote := []
    remoteEvents := []
    localQR := []
    localEvents := []
    firestoreCache := [] }

/-- A world with the remote unreachable and `code0` cached for `u1`. -/
def worldDown : World :=
  { remoteUp := false
    eventRemoteUp := false
    remote := []
    remoteEvents := []
    localQR := [("qr_codes_u1", [code0])]
    localEvents := []
    firestoreCache := [] }

/-- A world with `code0`'s serialized document (active, owned by `u1`)
already in the remote store. -/
def worldWithCode : World :=
  { remoteUp := true
    eventRemoteUp := true
    remote := [doc0]
    remoteEvents := []
    localQR := []
    localEvents := []
    firestoreCache := [] }

/-- The world right after saving `draftEmptyDesc` into `worldUp`. -/
def worldEmptyDesc : World :=
  { worldUp with remote := [toFirestoreFormat savedEmptyDesc] }

/-- The Scenario-B dataset: 2 entities of type `url` and 3 of type `email`. -/
def scenarioB : List SavedQRCode :=
  [ { code0 with id := "s1", type := QRType.url }
  , { code0 with id := "s2", type := QRType.url }
  , { code0 with id := "s3", type := QRType.email }
  , { code0 with id := "s4", type := QRType.email }
  , { code0 with id := "s5", type := QRType.email } ]

/-- The content fields `migrateFromLocalStorage` carries over to the remote
copy of a cached code (name, type, data, owner) — everything except the
regenerated id, timestamps, counters and the passthrough rendering fields. -/
def contentOf (c : SavedQRCode) : String × QRType × String × String :=
  (c.name, c.type, c.data, c.userId)

/-- The same content projection on a stored remote document; migration
copies satisfy `contentOfDoc (toFirestoreFormat (mkSavedQRCode
(draftOfCode c) i n)) = contentOf c`. -/
def contentOfDoc (d : StoredDoc) : String × QRType × String × String :=
  (d.name, d.type, d.data, d.userId)

/-- A migration world: remote reachable and empty, the cache holding exactly
`code0` (id `A`) for `u1`. -/
def worldMig : World :=
  { remoteUp := true
    eventRemoteUp := true
    remote := []
    remoteEvents := []
    localQR := [("qr_codes_u1", [code0])]
    localEvents := []
    firestoreCache := [] }

/-- A world for the scan-tracking scenarios: the code store reachable and
holding `code0` (scanCount 0), the event store unreachable, empty local
event log. -/
def worldScan : World :=
  { remoteUp := true
    eventRemoteUp := false
    remote := [doc0]
    remoteEvents := []
    localQR := []
    localEvents := []
    firestoreCache := [] }

/-- A tie dataset in which `url` is the first type encountered and both
types occur twice. -/
def cexTieCodes : List SavedQRCode :=
  [ { code0 with id := "x1", type := QRType.url }
  , { code0 with id := "x2", type := QRType.email }
  , { code0 with id := "x3", type := QRType.url }
  , { code0 with id := "x4", type := QRType.email } ]

/-! ### Basic lemmas about the store primitives -/

theorem getDoc_putDoc (l : List StoredDoc) (c : StoredDoc) :
    getDoc (putDoc l c) c.id = some c := by
  unfold putDoc getDoc
  split
  · rename_i h
    induction l with
    | nil => simp at h
    | cons d rest ih =>
        by_cases hd : d.id = c.id
        · simp [List.find?, hd]
        · have hd' : (d.id == c.id) = false := beq_false_of_ne hd
          simp only [List.any_cons, hd', Bool.false_or] at h
          simpa [List.find?, hd'] using ih h
  · induction l with
    | nil => simp [List.find?]
    | cons d rest ih =>
        rename_i h
        simp only [List.any_cons, Bool.or_eq_true, not_or] at h
        have hd' : (d.id == c.id) = false := by
          cases hdc : d.id == c.id
          · rfl
          · exact absurd hdc h.1
        have h2 : ¬rest.any (fun d => d.id == c.id) = true := h.2
        simpa [List.find?, hd'] using ih h2

theorem getDoc_putDoc_fmt (l : List StoredDoc) (c : SavedQRCode) :
    getDoc (putDoc l (toFirestoreFormat c)) c.id = some (toFirestoreFormat c) :=
  getDoc_putDoc l (toFirestoreFormat c)

theorem getDoc_map_ite (l : List StoredDoc) (qrCodeId : String)
    (f : StoredDoc → StoredDoc) (c : StoredDoc)
    (hf : ∀ d, (f d).id = d.id)
    (h : getDoc l qrCodeId = some c) :
    getDoc (l.map (fun d => if d.id == qrCodeId then f d else d)) qrCodeId = some (f c) := by
  unfold getDoc at h ⊢
  induction l with
  | nil => simp [List.find?] at h
  | cons d rest ih =>
      by_cases hd : d.id = qrCodeId
      · have hd' : (d.id == qrCodeId) = true := beq_iff_eq.mpr hd
        simp only [List.find?, hd', Option.some.injEq] at h
        subst h
        have hfd : ((f d).id == qrCodeId) = true := beq_iff_eq.mpr (by rw [hf d, hd])
        simp [List.find?, hd', hfd]
      · have hd' : (d.id == qrCodeId) = false := beq_false_of_ne hd
        simp only [List.find?, hd'] at h
        simpa [List.find?, hd'] using ih h

theorem getDoc_map_ite_ne (l : List StoredDoc) (qrCodeId other : String)
    (f : StoredDoc → StoredDoc)
    (hf : ∀ d, (f d).id = d.id) (hne : other ≠ qrCodeId) :
    getDoc (l.map (fun d => if d.id == qrCodeId then f d else d)) other = getDoc l other := by
  unfold getDoc
  induction l with
  | nil => simp
  | cons d rest ih =>
      by_cases hd : d.id = qrCodeId
      · have hd' : (d.id == qrCodeId) = true := beq_iff_eq.mpr hd
        have hother : ((f d).id == other) = false := by
          refine beq_false_of_ne ?_
          rw [hf d, hd]
          exact fun hh => hne hh.symm
        have hother2 : (d.id == other) = false := by
          refine beq_false_of_ne ?_
          rw [hd]
          exact fun hh => hne hh.symm
        simpa [List.find?, hd', hother, hother2] using ih
      · have hd' : (d.id == qrCodeId) = false := beq_false_of_ne hd
        by_cases ho : d.id = other
        · simp [List.find?, hd', beq_iff_eq.mpr ho]
        · simpa [List.find?, hd', beq_false_of_ne ho] using ih

theorem lookupKey_setKey_self {α : Type} (l : List (String × α)) (k : String) (v : α) :
    lookupKey (setKey l k v) k = some v := by
  unfold setKey lookupKey
  split
  · rename_i h
    induction l with
    | nil => simp at h
    | cons p rest ih =>
        by_cases hp : p.1 = k
        · simp [List.find?, hp]
        · have hp' : (p.1 == k) = false := beq_false_of_ne hp
          simp only [List.any_cons, hp', Bool.false_or] at h
          simpa [List.find?, hp'] using ih h
  · induction l with
    | nil => simp [List.find?]
    | cons p rest ih =>
        rename_i h
        simp only [List.any_cons, Bool.or_eq_true, not_or] at h
        have hp' : (p.1 == k) = false := by
          cases hpc : p.1 == k
          · rfl
          · exact absurd hpc h.1
        have h2 : ¬rest.any (fun p => p.1 == k) = true := h.2
        simpa [List.find?, hp'] using ih h2

theorem lookupKey_removeKey_self {α : Type} (l : List (String × α)) (k : String) :
    lookupKey (removeKey l k) k = none := by
  unfold removeKey lookupKey
  rw [Option.map_eq_none', List.find?_eq_none]
  intro p hp
  have h2 := List.of_mem_filter hp
  simp only [bne_iff_ne, ne_eq] at h2
  simp only [beq_iff_eq]
  exact h2

/-! ### C9 — stats zero case -/

/-- C9: computing stats over an empty entity list returns exactly the zero
record — zero totals, the default type `url`, no most-scanned code and no
recent codes — and, being a total function, never throws. This is the
aggregation shared by `QRCodeFirestore.getQRCodeStats` and the fallback of
`QRCodeStorage.getQRCodeStats`. -/
theorem stats_zero_case :
    computeStats [] =
      { totalCodes := 0
        activeCodes := 0
        inactiveCodes := 0
        totalDownloads := 0
        totalScans := 0
        mostUsedType := QRType.url
        mostScannedCode := none
        recentCodes := [] } := rfl

/-! ### C2 — fallback read correctness -/

/-- C2: for every user, when every remote read fails
(`w.remoteUp = false`), `QRCodeStorage.getUserQRCodes` returns exactly the
local cache's current contents for that user; the function resolves to a
list (the thrown transport error is consumed by the catch branch), so no
error reaches the caller. -/
theorem getUserQRCodes_fallback_to_cache (w : World) (userId : String)
    (idGen : Nat → String) (now : Nat) (h : w.remoteUp = false) :
    (QRCodeStorage.getUserQRCodes w userId idGen now).1 =
      QRCodeStorage.getUserQRCodesLocal w userId := by
  unfold QRCodeStorage.getUserQRCodes QRCodeFirestore.getUserQRCodes
  simp [h]

/-- Witness for C2 at a concrete world: remote down, cache holding exactly
`[code0]` for `u1`. -/
theorem getUserQRCodes_fallback_to_cache_witness :
    worldDown.remoteUp = false ∧
      (QRCodeStorage.getUserQRCodes worldDown "u1" (fun _ => "g") 7).1 =
        QRCodeStorage.getUserQRCodesLocal worldDown "u1" :=
  ⟨rfl, getUserQRCodes_fallback_to_cache worldDown "u1" (fun _ => "g") 7 rfl⟩

/-! ### C3 — creation postconditions of `saveQRCode` -/

theorem saveQRCode_fst (w : World) (draft : QRDraft) (remoteId localId : String)
    (now : Nat) :
    (QRCodeStorage.saveQRCode w draft remoteId localId now).1 =
      if w.remoteUp then mkSavedQRCode draft remoteId now
      else mkSavedQRCode draft localId now := by
  cases hup : w.remoteUp
  · simp [QRCodeStorage.saveQRCode, QRCodeFirestore.saveQRCode,
      QRCodeStorage.saveLocalFallback, hup]
  · simp only [QRCodeStorage.saveQRCode, QRCodeFirestore.saveQRCode,
      QRCodeFirestore.getQRCode, hup, if_true, ite_true]
    rw [getDoc_putDoc_fmt]
    simp only [Option.map_some']
    split <;> rfl

theorem saveQRCode_snd_down (w : World) (draft : QRDraft) (remoteId localId : String)
    (now : Nat) (h : w.remoteUp = false) :
    (QRCodeStorage.saveQRCode w draft remoteId localId now).2 =
      { w with
        localQR := setKey w.localQR ("qr_codes_" ++ draft.userId)
          (QRCodeStorage.getUserQRCodesLocal w draft.userId ++
            [mkSavedQRCode draft localId now]) } := by
  simp [QRCodeStorage.saveQRCode, QRCodeFirestore.saveQRCode,
    QRCodeStorage.saveLocalFallback, h]

/-- C3: for every draft, `QRCodeStorage.saveQRCode` returns a full entity
with a generated id (the remote-generated id when the remote write succeeds,
the fallback-generated id when the remote is unreachable),
`createdAt = updatedAt`, `downloadCount = 0` and `scanCount = 0`; in the
unreachable case the entity is appended to the user's local cache array. -/
theorem saveQRCode_creation_postconditions (w : World) (draft : QRDraft)
    (remoteId localId : String) (now : Nat) :
    (QRCodeStorage.saveQRCode w draft remoteId localId now).1.createdAt =
        (QRCodeStorage.saveQRCode w draft remoteId localId now).1.updatedAt ∧
    (QRCodeStorage.saveQRCode w draft remoteId localId now).1.downloadCount = 0 ∧
    (QRCodeStorage.saveQRCode w draft remoteId localId now).1.scanCount = 0 ∧
    (w.remoteUp = true →
      (QRCodeStorage.saveQRCode w draft remoteId localId now).1.id = remoteId) ∧
    (w.remoteUp = false →
      (QRCodeStorage.saveQRCode w draft remoteId localId now).1.id = localId) ∧
    (w.remoteUp = false →
      QRCodeStorage.getUserQRCodesLocal
          (QRCodeStorage.saveQRCode w draft remoteId localId now).2 draft.userId =
        QRCodeStorage.getUserQRCodesLocal w draft.userId ++
          [mkSavedQRCode draft localId now]) := by
  refine ⟨?_, ?_, ?_, ?_, ?_, ?_⟩
  · rw [saveQRCode_fst]; split <;> rfl
  · rw [saveQRCode_fst]; split <;> rfl
  · rw [saveQRCode_fst]; split <;> rfl
  · intro h; rw [saveQRCode_fst, h]; rfl
  · intro h; rw [saveQRCode_fst, h]; rfl
  · intro h
    rw [saveQRCode_snd_down w draft remoteId localId now h]
    unfold QRCodeStorage.getUserQRCodesLocal
    rw [lookupKey_setKey_self]
    rfl

/-- Witness for C3 at the Scenario-A instance: remote unreachable, the
vcard draft for `u1`; the saved entity carries the fallback id `L1`, equal
timestamps, zero counters, and lands in the cache. -/
theorem saveQRCode_creation_postconditions_witness :
    worldDown.remoteUp = false ∧
    (QRCodeStorage.saveQRCode worldDown draft0 "R1" "L1" 9).1.createdAt =
      (QRCodeStorage.saveQRCode worldDown draft0 "R1" "L1" 9).1.updatedAt ∧
    (QRCodeStorage.saveQRCode worldDown draft0 "R1" "L1" 9).1.downloadCount = 0 ∧
    (QRCodeStorage.saveQRCode worldDown draft0 "R1" "L1" 9).1.scanCount = 0 ∧
    (QRCodeStorage.saveQRCode worldDown draft0 "R1" "L1" 9).1.id = "L1" ∧
    QRCodeStorage.getUserQRCodesLocal
        (QRCodeStorage.saveQRCode worldDown draft0 "R1" "L1" 9).2 "u1" =
      QRCodeStorage.getUserQRCodesLocal worldDown "u1" ++ [mkSavedQRCode draft0 "L1" 9] :=
  ⟨rfl,
    (saveQRCode_creation_postconditions worldDown draft0 "R1" "L1" 9).1,
    (saveQRCode_creation_postconditions worldDown draft0 "R1" "L1" 9).2.1,
    (saveQRCode_creation_postconditions worldDown draft0 "R1" "L1" 9).2.2.1,
    (saveQRCode_creation_postconditions worldDown draft0 "R1" "L1" 9).2.2.2.2.1 rfl,
    (saveQRCode_creation_postconditions worldDown draft0 "R1" "L1" 9).2.2.2.2.2 rfl⟩

/-! ### C10 — toggle involution -/

theorem applyUpdate_id (c : SavedQRCode) (u : QRUpdate) (now : Nat) :
    (applyUpdate c u now).id = c.id := rfl

theorem toggle_step (w : World) (qrCodeId : String) (now : Nat) (c : StoredDoc)
    (hup : w.remoteUp = true) (hc : getDoc w.remote qrCodeId = some c) :
    QRCodeFirestore.toggleQRCodeStatus w qrCodeId now =
      (true,
        { w with
          remote := w.remote.map (fun d =>
            if d.id == qrCodeId then
              applyUpdateStored d { isActive := some (!c.isActive), lastAccessed := some now } now
            else d) }) := by
  unfold QRCodeFirestore.toggleQRCodeStatus QRCodeFirestore.getQRCode
    QRCodeFirestore.updateQRCode
  simp [hup, hc, fromFirestoreFormat]

/-- C10: with the remote reachable, a successful
`QRCodeFirestore.toggleQRCodeStatus` on a present id flips `isActive` and
stamps `lastAccessed`, and a second successful toggle restores `isActive` to
its original value; toggling an absent id returns `false` and leaves the
world (hence every entity) unchanged. -/
theorem toggleQRCodeStatus_involution (w : World) (qrCodeId : String) (now now2 : Nat)
    (hup : w.remoteUp = true) :
    (getDoc w.remote qrCodeId = none →
        QRCodeFirestore.toggleQRCodeStatus w qrCodeId now = (false, w)) ∧
    ∀ c, getDoc w.remote qrCodeId = some c →
      (QRCodeFirestore.toggleQRCodeStatus w qrCodeId now).1 = true ∧
      ∃ c1,
        getDoc (QRCodeFirestore.toggleQRCodeStatus w qrCodeId now).2.remote qrCodeId =
            some c1 ∧
        c1.isActive = !c.isActive ∧
        c1.lastAccessed = some (StoredTs.ts now) ∧
        (QRCodeFirestore.toggleQRCodeStatus
            (QRCodeFirestore.toggleQRCodeStatus w qrCodeId now).2 qrCodeId now2).1 = true ∧
        ∃ c2,
          getDoc (QRCodeFirestore.toggleQRCodeStatus
              (QRCodeFirestore.toggleQRCodeStatus w qrCodeId now).2 qrCodeId now2).2.remote
            qrCodeId = some c2 ∧
          c2.isActive = c.isActive := by
  constructor
  · intro h
    unfold QRCodeFirestore.toggleQRCodeStatus QRCodeFirestore.getQRCode
    simp [hup, h]
  · intro c hc
    have h1 := toggle_step w qrCodeId now c hup hc
    have hgd1 :
        getDoc (QRCodeFirestore.toggleQRCodeStatus w qrCodeId now).2.remote qrCodeId =
          some (applyUpdateStored c { isActive := some (!c.isActive), lastAccessed := some now } now) := by
      rw [h1]
      exact getDoc_map_ite w.remote qrCodeId _ c (fun d => rfl) hc
    have hup1 : (QRCodeFirestore.toggleQRCodeStatus w qrCodeId now).2.remoteUp = true := by
      rw [h1]; exact hup
    have h2 := toggle_step (QRCodeFirestore.toggleQRCodeStatus w qrCodeId now).2 qrCodeId now2
      (applyUpdateStored c { isActive := some (!c.isActive), lastAccessed := some now } now) hup1 hgd1
    refine ⟨by rw [h1], applyUpdateStored c { isActive := some (!c.isActive), lastAccessed := some now } now,
      hgd1, rfl, rfl, by rw [h2], ?_⟩
    refine ⟨applyUpdateStored
        (applyUpdateStored c { isActive := some (!c.isActive), lastAccessed := some now } now)
        { isActive :=
            some (!(applyUpdateStored c { isActive := some (!c.isActive), lastAccessed := some now } now).isActive),
          lastAccessed := some now2 } now2, ?_, ?_⟩
    · rw [h2]
      exact getDoc_map_ite _ qrCodeId _ _ (fun d => rfl) hgd1
    · show (!(!c.isActive)) = c.isActive
      exact Bool.not_not c.isActive

/-- Witness for C10: toggling the present id `A` in `worldWithCode` succeeds
and flips `isActive`; toggling the absent id `Z` returns `false` unchanged. -/
theorem toggleQRCodeStatus_involution_witness :
    (getDoc worldWithCode.remote "Z" = none →
        QRCodeFirestore.toggleQRCodeStatus worldWithCode "Z" 5 = (false, worldWithCode)) ∧
    ((QRCodeFirestore.toggleQRCodeStatus worldWithCode "A" 5).1 = true ∧
      ∃ c1,
        getDoc (QRCodeFirestore.toggleQRCodeStatus worldWithCode "A" 5).2.remote "A" =
            some c1 ∧
        c1.isActive = !doc0.isActive ∧
        c1.lastAccessed = some (StoredTs.ts 5) ∧
        (QRCodeFirestore.toggleQRCodeStatus
            (QRCodeFirestore.toggleQRCodeStatus worldWithCode "A" 5).2 "A" 6).1 = true ∧
        ∃ c2,
          getDoc (QRCodeFirestore.toggleQRCodeStatus
              (QRCodeFirestore.toggleQRCodeStatus worldWithCode "A" 5).2 "A" 6).2.remote
            "A" = some c2 ∧
          c2.isActive = doc0.isActive) :=
  ⟨(toggleQRCodeStatus_involution worldWithCode "Z" 5 6 rfl).1,
    (toggleQRCodeStatus_involution worldWithCode "A" 5 6 rfl).2 doc0 rfl⟩

/-! ### C8 — save/get round trip on the remote store -/

/-- C8 counterexample: saving the Scenario-A draft with an EMPTY string
description returns an entity whose `description` is `some ""`, but the
immediate `getQRCode` read-back has `description = none`: `toFirestoreFormat`
coerces `description || null` before `setDoc`, so the read-back is NOT
field-equal to the saved entity outside the timestamps, refuting the claim
for this draft. -/
theorem save_then_get_description_counterexample :
    QRCodeFirestore.saveQRCode worldUp draftEmptyDesc "R" 9 =
      Except.ok (savedEmptyDesc, worldEmptyDesc) ∧
    savedEmptyDesc.description = some "" ∧
    QRCodeFirestore.getQRCode worldEmptyDesc savedEmptyDesc.id 9 =
      Except.ok (some (fromFirestoreFormat (toFirestoreFormat savedEmptyDesc) 9)) ∧
    (fromFirestoreFormat (toFirestoreFormat savedEmptyDesc) 9).description = none ∧
    (fromFirestoreFormat (toFirestoreFormat savedEmptyDesc) 9).description ≠
      savedEmptyDesc.description :=
  ⟨rfl, rfl, rfl, rfl, by decide⟩

/-- C8 amended: with the remote reachable, for every draft whose
`description` is not the empty string, `saveQRCode` followed by `getQRCode`
of the returned id at a read instant `r ≥ now` yields the saved entity with
only `createdAt`/`updatedAt` replaced — both re-assigned on read (the
stored timestamps are flattened maps `convertTimestamp` cannot parse) to
`r`, which is ≥ the instant `t0` observed immediately before the call.
Every other field, including every content field of the draft, reads back
equal. -/
theorem save_then_get_round_trip (w : World) (draft : QRDraft) (freshId : String)
    (now r t0 : Nat) (hup : w.remoteUp = true) (ht : t0 ≤ now) (hr : now ≤ r)
    (hdesc : draft.description ≠ some "") :
    ∃ saved w1,
      QRCodeFirestore.saveQRCode w draft freshId now = Except.ok (saved, w1) ∧
      QRCodeFirestore.getQRCode w1 saved.id r =
        Except.ok (some { saved with createdAt := r, updatedAt := r }) ∧
      saved.name = draft.name ∧ saved.type = draft.type ∧ saved.data = draft.data ∧
      saved.config = draft.config ∧ saved.fgColor = draft.fgColor ∧
      saved.bgColor = draft.bgColor ∧ saved.userId = draft.userId ∧
      saved.tags = draft.tags ∧ saved.description = draft.description ∧
      saved.createdAt = saved.updatedAt ∧
      t0 ≤ saved.createdAt ∧ t0 ≤ r := by
  have hdd : (match draft.description with
      | some s => if s = "" then none else some s
      | none => none) = draft.description := by
    cases hd : draft.description with
    | none => rfl
    | some s =>
        have hs : s ≠ "" := fun he => hdesc (by rw [hd, he])
        simp [hs]
  refine ⟨mkSavedQRCode draft freshId now,
    { w with remote := putDoc w.remote (toFirestoreFormat (mkSavedQRCode draft freshId now)) },
    ?_, ?_, rfl, rfl, rfl, rfl, rfl, rfl, rfl, rfl, rfl, rfl, ht, le_trans ht hr⟩
  · unfold QRCodeFirestore.saveQRCode
    simp [hup]
  · unfold QRCodeFirestore.getQRCode
    simp only [hup, if_true, ite_true]
    rw [getDoc_putDoc_fmt, Option.map_some']
    simp only [fromFirestoreFormat, toFirestoreFormat, mkSavedQRCode, convertTimestamp]
    simp [hdd]

/-- Witness for C8's amended theorem at a concrete reachable world:
`t0 = 3 ≤ now = 9 ≤ r = 12`, draft description absent. -/
theorem save_then_get_round_trip_witness :
    worldUp.remoteUp = true ∧ 3 ≤ 9 ∧ (9 : Nat) ≤ 12 ∧
    draft0.description ≠ some "" ∧
    ∃ saved w1,
      QRCodeFirestore.saveQRCode worldUp draft0 "R" 9 = Except.ok (saved, w1) ∧
      QRCodeFirestore.getQRCode w1 saved.id 12 =
        Except.ok (some { saved with createdAt := 12, updatedAt := 12 }) ∧
      saved.name = draft0.name ∧ saved.type = draft0.type ∧ saved.data = draft0.data ∧
      saved.config = draft0.config ∧ saved.fgColor = draft0.fgColor ∧
      saved.bgColor = draft0.bgColor ∧ saved.userId = draft0.userId ∧
      saved.tags = draft0.tags ∧ saved.description = draft0.description ∧
      saved.createdAt = saved.updatedAt ∧
      3 ≤ saved.createdAt ∧ (3 : Nat) ≤ 12 :=
  ⟨rfl, by decide, by decide, by decide,
    save_then_get_round_trip worldUp draft0 "R" 9 12 3 rfl (by decide) (by decide)
      (by decide)⟩

/-! ### C4 — most-used-type selection -/

theorem le_pickMax_left {α : Type} (a b : α × Nat) : a.2 ≤ (pickMax a b).2 := by
  unfold pickMax; split <;> omega

theorem le_pickMax_right {α : Type} (a b : α × Nat) : b.2 ≤ (pickMax a b).2 := by
  unfold pickMax; split <;> omega

theorem foldl_pickMax_mem {α : Type} :
    ∀ (es : List (α × Nat)) (e : α × Nat), es.foldl pickMax e ∈ e :: es := by
  intro es
  induction es with
  | nil => intro e; simp
  | cons b es ih =>
      intro e
      have h := ih (pickMax e b)
      simp only [List.foldl_cons]
      rcases List.mem_cons.mp h with h1 | h1
      · rw [h1]
        unfold pickMax
        split
        · exact List.mem_cons_self _ _
        · exact List.mem_cons_of_mem _ (List.mem_cons_self _ _)
      · exact List.mem_cons_of_mem _ (List.mem_cons_of_mem _ h1)

theorem foldl_pickMax_ge {α : Type} :
    ∀ (es : List (α × Nat)) (e x : α × Nat), x ∈ e :: es → x.2 ≤ (es.foldl pickMax e).2 := by
  intro es
  induction es with
  | nil =>
      intro e x hx
      have hxe : x = e := by simpa using hx
      subst hxe
      simp
  | cons b es ih =>
      intro e x hx
      simp only [List.foldl_cons]
      rcases List.mem_cons.mp hx with h1 | h1
      · rw [h1]
        exact le_trans (le_pickMax_left e b)
          (ih (pickMax e b) (pickMax e b) (List.mem_cons_self _ _))
      · rcases List.mem_cons.mp h1 with h2 | h2
        · rw [h2]
          exact le_trans (le_pickMax_right e b)
            (ih (pickMax e b) (pickMax e b) (List.mem_cons_self _ _))
        · exact ih (pickMax e b) x (List.mem_cons_of_mem _ h2)

theorem foldl_pickMax_last {α : Type} :
    ∀ (es : List (α × Nat)) (e : α × Nat),
      ∃ l1 l2, e :: es = l1 ++ (es.foldl pickMax e) :: l2 ∧
        ∀ x ∈ l2, x.2 < (es.foldl pickMax e).2 := by
  intro es
  induction es with
  | nil => intro e; exact ⟨[], [], rfl, by simp⟩
  | cons b es ih =>
      intro e
      obtain ⟨l1, l2, hdec, hlt⟩ := ih (pickMax e b)
      simp only [List.foldl_cons]
      cases l1 with
      | nil =>
          simp only [List.nil_append] at hdec
          injection hdec with h1 h2
          by_cases hgt : e.2 > b.2
          · have hpe : pickMax e b = e := by unfold pickMax; simp [hgt]
            refine ⟨[], b :: l2, ?_, ?_⟩
            · rw [← h1, hpe, List.nil_append, ← h2]
            · intro x hx
              rcases List.mem_cons.mp hx with hxb | hxl
              · rw [hxb, ← h1, hpe]; exact hgt
              · exact hlt x hxl
          · have hpe : pickMax e b = b := by unfold pickMax; simp [hgt]
            refine ⟨[e], l2, ?_, hlt⟩
            rw [← h1, hpe, ← h2]
            rfl
      | cons y l1' =>
          simp only [List.cons_append] at hdec
          injection hdec with h1 h2
          refine ⟨e :: b :: l1', l2, ?_, hlt⟩
          simp only [List.cons_append]
          rw [← h2]

theorem tableCount_cons_eq (u : QRType) (n : Nat) (rest : List (QRType × Nat)) (t : QRType)
    (h : u = t) : tableCount ((u, n) :: rest) t = n := by
  subst h; simp [tableCount, List.find?]

theorem tableCount_cons_ne (u : QRType) (n : Nat) (rest : List (QRType × Nat)) (t : QRType)
    (h : u ≠ t) : tableCount ((u, n) :: rest) t = tableCount rest t := by
  simp [tableCount, List.find?, beq_false_of_ne h]

theorem bumpType_cons_eq (u : QRType) (n : Nat) (rest : List (QRType × Nat)) (s : QRType)
    (h : u = s) : bumpType ((u, n) :: rest) s = (u, n + 1) :: rest := by
  simp [bumpType, h]

theorem bumpType_cons_ne (u : QRType) (n : Nat) (rest : List (QRType × Nat)) (s : QRType)
    (h : u ≠ s) : bumpType ((u, n) :: rest) s = (u, n) :: bumpType rest s := by
  simp [bumpType, h]

theorem tableCount_bumpType (l : List (QRType × Nat)) (s t : QRType) :
    tableCount (bumpType l s) t = tableCount l t + (if t = s then 1 else 0) := by
  induction l with
  | nil =>
      by_cases h : t = s
      · subst h
        rw [show bumpType [] t = [(t, 1)] from rfl, tableCount_cons_eq t 1 [] t rfl]
        simp [tableCount]
      · rw [show bumpType [] s = [(s, 1)] from rfl,
          tableCount_cons_ne s 1 [] t (fun hh => h hh.symm)]
        simp [tableCount, h]
  | cons p rest ih =>
      obtain ⟨u, n⟩ := p
      by_cases h1 : u = s
      · rw [bumpType_cons_eq u n rest s h1]
        by_cases h2 : u = t
        · rw [tableCount_cons_eq u (n + 1) rest t h2, tableCount_cons_eq u n rest t h2]
          have hts : t = s := by rw [← h2, h1]
          simp [hts]
        · rw [tableCount_cons_ne u (n + 1) rest t h2, tableCount_cons_ne u n rest t h2]
          have hts : t ≠ s := fun hh => h2 (by rw [h1, ← hh])
          simp [hts]
      · rw [bumpType_cons_ne u n rest s h1]
        by_cases h2 : u = t
        · rw [tableCount_cons_eq u n (bumpType rest s) t h2, tableCount_cons_eq u n rest t h2]
          have hts : t ≠ s := fun hh => h1 (by rw [h2, hh])
          simp [hts]
        · rw [tableCount_cons_ne u n (bumpType rest s) t h2, tableCount_cons_ne u n rest t h2]
          exact ih

theorem tableCount_typeCounts_aux (codes : List SavedQRCode) :
    ∀ (acc : List (QRType × Nat)) (t : QRType),
      tableCount (codes.foldl (fun a c => bumpType a c.type) acc) t =
        tableCount acc t + codes.countP (fun c => c.type == t) := by
  induction codes with
  | nil => intro acc t; simp
  | cons c rest ih =>
      intro acc t
      simp only [List.foldl_cons, List.countP_cons]
      rw [ih (bumpType acc c.type) t, tableCount_bumpType]
      by_cases h : c.type = t
      · have hb : (c.type == t) = true := beq_iff_eq.mpr h
        have ht : t = c.type := h.symm
        simp [hb, if_pos ht]
        omega
      · have hb : (c.type == t) = false := beq_false_of_ne h
        have ht : ¬t = c.type := fun hh => h hh.symm
        simp [hb, if_neg ht]

theorem tableCount_typeCounts (codes : List SavedQRCode) (t : QRType) :
    tableCount (typeCounts codes) t = codes.countP (fun c => c.type == t) := by
  have h := tableCount_typeCounts_aux codes [] t
  simpa [typeCounts, tableCount] using h

theorem tableKeys_bumpType (l : List (QRType × Nat)) (s : QRType) :
    tableKeys (bumpType l s) =
      if s ∈ tableKeys l then tableKeys l else tableKeys l ++ [s] := by
  induction l with
  | nil => simp [bumpType, tableKeys]
  | cons p rest ih =>
      obtain ⟨u, n⟩ := p
      by_cases h : u = s
      · rw [bumpType_cons_eq u n rest s h]
        subst h
        simp [tableKeys]
      · rw [bumpType_cons_ne u n rest s h]
        have hsu : s ≠ u := Ne.symm h
        by_cases hm : s ∈ tableKeys rest
        · simp only [tableKeys, List.map_cons] at *
          rw [ih]
          simp [hm, hsu]
        · simp only [tableKeys, List.map_cons] at *
          rw [ih]
          simp [hm, hsu]

theorem tableKeys_nodup_bumpType (l : List (QRType × Nat)) (s : QRType)
    (h : (tableKeys l).Nodup) : (tableKeys (bumpType l s)).Nodup := by
  rw [tableKeys_bumpType]
  split
  · exact h
  · rename_i hns
    refine List.Nodup.append h (List.nodup_singleton s) ?_
    intro x hx hxs
    have hxe : x = s := by simpa using hxs
    exact hns (hxe ▸ hx)

theorem typeCounts_keys_nodup (codes : List SavedQRCode) :
    (tableKeys (typeCounts codes)).Nodup := by
  unfold typeCounts
  suffices h : ∀ acc, (tableKeys acc).Nodup →
      (tableKeys (codes.foldl (fun a c => bumpType a c.type) acc)).Nodup by
    exact h [] (by simp [tableKeys])
  induction codes with
  | nil => intro acc h; simpa using h
  | cons c rest ih =>
      intro acc h
      simp only [List.foldl_cons]
      exact ih _ (tableKeys_nodup_bumpType acc c.type h)

theorem find?_eq_of_mem_nodup :
    ∀ (l : List (QRType × Nat)) (t : QRType) (n : Nat),
      (t, n) ∈ l → (tableKeys l).Nodup → l.find? (fun p => p.1 == t) = some (t, n) := by
  intro l
  induction l with
  | nil => intro t n h _; simp at h
  | cons p rest ih =>
      intro t n hmem hnd
      obtain ⟨u, m⟩ := p
      rcases List.mem_cons.mp hmem with h1 | h1
      · obtain ⟨h2, h3⟩ : t = u ∧ n = m := by
          have := h1
          simp only [Prod.mk.injEq] at this
          exact this
        subst h2; subst h3
        simp [List.find?]
      · have htk : t ∈ tableKeys rest := by
          simp only [tableKeys, List.mem_map]
          exact ⟨(t, n), h1, rfl⟩
        simp only [tableKeys, List.map_cons, List.nodup_cons] at hnd
        have hut : u ≠ t := fun hh => hnd.1 (hh ▸ htk)
        rw [List.find?]
        simp only [beq_false_of_ne hut]
        exact ih t n h1 hnd.2

theorem tableCount_eq_of_mem_nodup (l : List (QRType × Nat)) (t : QRType) (n : Nat)
    (hmem : (t, n) ∈ l) (hnd : (tableKeys l).Nodup) : tableCount l t = n := by
  rw [tableCount, find?_eq_of_mem_nodup l t n hmem hnd]
  rfl

theorem tableCount_le_foldl_pickMax (es : List (QRType × Nat)) (e : QRType × Nat)
    (t : QRType) : tableCount (e :: es) t ≤ (es.foldl pickMax e).2 := by
  cases hf : (e :: es).find? (fun p => p.1 == t) with
  | none => simp [tableCount, hf]
  | some p =>
      have hp := List.mem_of_find?_eq_some hf
      have hge := foldl_pickMax_ge es e p hp
      simpa [tableCount, hf] using hge

theorem bumpType_ne_nil (l : List (QRType × Nat)) (s : QRType) : bumpType l s ≠ [] := by
  cases l with
  | nil => simp [bumpType]
  | cons p rest =>
      obtain ⟨u, n⟩ := p
      by_cases h : u = s
      · rw [bumpType_cons_eq u n rest s h]; simp
      · rw [bumpType_cons_ne u n rest s h]; simp

theorem typeCounts_ne_nil (codes : List SavedQRCode) (h : codes ≠ []) :
    typeCounts codes ≠ [] := by
  unfold typeCounts
  cases codes with
  | nil => exact absurd rfl h
  | cons c rest =>
      simp only [List.foldl_cons]
      suffices hs : ∀ (l : List SavedQRCode) (acc : List (QRType × Nat)), acc ≠ [] →
          l.foldl (fun a c => bumpType a c.type) acc ≠ [] by
        exact hs rest _ (bumpType_ne_nil [] c.type)
      intro l
      induction l with
      | nil => intro acc ha; simpa using ha
      | cons d ds ih =>
          intro acc _
          simp only [List.foldl_cons]
          exact ih _ (bumpType_ne_nil acc d.type)

/-- C4 counterexample: on a dataset where `url` is the first type
encountered and `url` and `email` are tied (two occurrences each), the code
computes `mostUsedType = email` — the last type encountered — while the
claim's tie-break ("first type encountered") demands `url`. -/
theorem mostUsedType_tie_counterexample :
    specMostUsedTypeFirstTie cexTieCodes = QRType.url ∧
    mostUsedType cexTieCodes = QRType.email ∧
    mostUsedType cexTieCodes ≠ specMostUsedTypeFirstTie cexTieCodes := by decide

/-- C4 amended: for every non-empty entity list, `mostUsedType` is a type of
maximal frequency, and its frequency-table entry is followed only by entries
of strictly smaller count — ties are broken in favor of the LAST type
encountered (in first-occurrence order), not the first; the 2-url/3-email
dataset still yields `email`. -/
theorem mostUsedType_freq_spec (codes : List SavedQRCode) (h : codes ≠ []) :
    (∀ t : QRType, codes.countP (fun c => c.type == t) ≤
        codes.countP (fun c => c.type == mostUsedType codes)) ∧
    (∃ l1 l2,
        typeCounts codes =
          l1 ++ (mostUsedType codes,
            codes.countP (fun c => c.type == mostUsedType codes)) :: l2 ∧
        ∀ x ∈ l2, x.2 < codes.countP (fun c => c.type == mostUsedType codes)) ∧
    mostUsedType scenarioB = QRType.email := by
  have hne := typeCounts_ne_nil codes h
  obtain ⟨e, es, htc⟩ : ∃ e es, typeCounts codes = e :: es := by
    cases htc : typeCounts codes with
    | nil => exact absurd htc hne
    | cons e es => exact ⟨e, es, rfl⟩
  have hmu : mostUsedType codes = (es.foldl pickMax e).1 := by
    simp [mostUsedType, htc]
  have hrmem : es.foldl pickMax e ∈ e :: es := foldl_pickMax_mem es e
  have hrmem' : ((es.foldl pickMax e).1, (es.foldl pickMax e).2) ∈ typeCounts codes := by
    rw [htc]
    simpa using hrmem
  have hnd := typeCounts_keys_nodup codes
  have hcount : tableCount (typeCounts codes) (es.foldl pickMax e).1 = (es.foldl pickMax e).2 :=
    tableCount_eq_of_mem_nodup _ _ _ hrmem' hnd
  have hcp : codes.countP (fun c => c.type == (es.foldl pickMax e).1) = (es.foldl pickMax e).2 := by
    rw [← tableCount_typeCounts]
    exact hcount
  refine ⟨?_, ?_, by decide⟩
  · intro t
    rw [hmu, hcp, ← tableCount_typeCounts codes t, htc]
    exact tableCount_le_foldl_pickMax es e t
  · obtain ⟨l1, l2, hdec, hlt⟩ := foldl_pickMax_last es e
    have hpair :
        (mostUsedType codes, codes.countP (fun c => c.type == mostUsedType codes)) =
          es.foldl pickMax e := by
      rw [hmu, hcp]
    refine ⟨l1, l2, ?_, ?_⟩
    · rw [htc, hpair, hdec]
    · intro x hx
      rw [hmu, hcp]
      exact hlt x hx

/-- Witness for C4's amended theorem at the Scenario-B dataset. -/
theorem mostUsedType_freq_spec_witness :
    scenarioB ≠ [] ∧
    ((∀ t : QRType, scenarioB.countP (fun c => c.type == t) ≤
        scenarioB.countP (fun c => c.type == mostUsedType scenarioB)) ∧
    (∃ l1 l2,
        typeCounts scenarioB =
          l1 ++ (mostUsedType scenarioB,
            scenarioB.countP (fun c => c.type == mostUsedType scenarioB)) :: l2 ∧
        ∀ x ∈ l2, x.2 < scenarioB.countP (fun c => c.type == mostUsedType scenarioB)) ∧
    mostUsedType scenarioB = QRType.email) :=
  ⟨by decide, mostUsedType_freq_spec scenarioB (by decide)⟩

/-! ### C6 — scan-tracking gating -/

theorem incrementScanCount_preserves (w : World) (qrCodeId : String) (now : Nat) :
    (QRCodeFirestore.incrementScanCount w qrCodeId now).2.localEvents = w.localEvents ∧
    (QRCodeFirestore.incrementScanCount w qrCodeId now).2.remoteEvents = w.remoteEvents ∧
    (QRCodeFirestore.incrementScanCount w qrCodeId now).2.eventRemoteUp = w.eventRemoteUp ∧
    (QRCodeFirestore.incrementScanCount w qrCodeId now).2.remoteUp = w.remoteUp := by
  unfold QRCodeFirestore.incrementScanCount QRCodeFirestore.getQRCode
    QRCodeFirestore.updateQRCode
  cases hup : w.remoteUp
  · simp [hup]
  · cases hc : getDoc w.remote qrCodeId
    · simp [hup, hc]
    · simp [hup, hc]

/-- C6: `trackScan` is gated on the scan-count increment — when the
increment reports failure, the call returns `false` and neither the remote
event log nor the local ring buffer changes (no ScanEvent is recorded); when
the increment succeeds, the call returns `true` with the event appended to
the remote event log, falling back to `storeScanEvent` on the local ring
buffer when the remote event write rejects. -/
theorem trackScan_gating (w : World) (qrCodeId userId : String) (now : Nat) :
    ((QRCodeStorage.incrementScanCount w userId qrCodeId now).1 = false →
      ScanTracker.trackScan w qrCodeId userId now =
        (false, (QRCodeStorage.incrementScanCount w userId qrCodeId now).2) ∧
      (ScanTracker.trackScan w qrCodeId userId now).2.localEvents = w.localEvents ∧
      (ScanTracker.trackScan w qrCodeId userId now).2.remoteEvents = w.remoteEvents) ∧
    ((QRCodeStorage.incrementScanCount w userId qrCodeId now).1 = true →
      (w.eventRemoteUp = true →
        ScanTracker.trackScan w qrCodeId userId now =
          (true,
            { (QRCodeStorage.incrementScanCount w userId qrCodeId now).2 with
              remoteEvents :=
                (QRCodeStorage.incrementScanCount w userId qrCodeId now).2.remoteEvents ++
                  [ScanTracker.mkScanEvent qrCodeId userId now] })) ∧
      (w.eventRemoteUp = false →
        ScanTracker.trackScan w qrCodeId userId now =
          (true,
            ScanTracker.storeScanEvent
              (QRCodeStorage.incrementScanCount w userId qrCodeId now).2
              (ScanTracker.mkScanEvent qrCodeId userId now)))) := by
  have hpres := incrementScanCount_preserves w qrCodeId now
  constructor
  · intro hfail
    have htr : ScanTracker.trackScan w qrCodeId userId now =
        (false, (QRCodeStorage.incrementScanCount w userId qrCodeId now).2) := by
      unfold ScanTracker.trackScan
      simp only [QRCodeStorage.incrementScanCount] at hfail ⊢
      simp [hfail]
    refine ⟨htr, ?_, ?_⟩
    · rw [htr]
      exact hpres.1
    · rw [htr]
      exact hpres.2.1
  · intro hok
    have hev2 : (QRCodeStorage.incrementScanCount w userId qrCodeId now).2.eventRemoteUp =
        w.eventRemoteUp := hpres.2.2.1
    constructor
    · intro hup
      unfold ScanTracker.trackScan ScanEventStorage.saveScanEvent
      simp only [QRCodeStorage.incrementScanCount] at hok hev2 ⊢
      simp [hok, hev2, hup]
    · intro hdown
      unfold ScanTracker.trackScan ScanEventStorage.saveScanEvent
      simp only [QRCodeStorage.incrementScanCount] at hok hev2 ⊢
      simp [hok, hev2, hdown]

/-- Witness for C6 at `worldScan`: incrementing the absent id `Z` fails and
`trackScan` records nothing; incrementing the present id `A` succeeds and
the event lands in the local ring buffer (the event store is down). -/
theorem trackScan_gating_witness :
    (QRCodeStorage.incrementScanCount worldScan "u1" "Z" 4).1 = false ∧
    ScanTracker.trackScan worldScan "Z" "u1" 4 =
      (false, (QRCodeStorage.incrementScanCount worldScan "u1" "Z" 4).2) ∧
    (QRCodeStorage.incrementScanCount worldScan "u1" "A" 4).1 = true ∧
    ScanTracker.trackScan worldScan "A" "u1" 4 =
      (true,
        ScanTracker.storeScanEvent (QRCodeStorage.incrementScanCount worldScan "u1" "A" 4).2
          (ScanTracker.mkScanEvent "A" "u1" 4)) :=
  ⟨by decide, ((trackScan_gating worldScan "Z" "u1" 4).1 (by decide)).1,
    by decide, ((trackScan_gating worldScan "A" "u1" 4).2 (by decide)).2 rfl⟩

/-! ### C5 — scan counting and the 1000-entry ring buffer -/

theorem drop_trim_append {α : Type} (L M : List α) (n : Nat) :
    (L.drop (L.length - n) ++ M).drop ((L.drop (L.length - n) ++ M).length - n) =
      (L ++ M).drop ((L ++ M).length - n) := by
  have ha : L.length - n ≤ L.length := Nat.sub_le _ _
  rw [← List.drop_append_of_le_length ha, List.drop_drop]
  congr 1
  simp only [List.length_drop, List.length_append]
  omega

theorem storeScanEvent_log (w : World) (e : ScanEvent) :
    ScanTracker.getScanEventsLocalAll (ScanTracker.storeScanEvent w e) e.userId =
      (ScanTracker.getScanEventsLocalAll w e.userId ++ [e]).drop
        ((ScanTracker.getScanEventsLocalAll w e.userId ++ [e]).length - 1000) := by
  unfold ScanTracker.storeScanEvent ScanTracker.getScanEventsLocalAll
  simp [lookupKey_setKey_self]

theorem trackScan_step (w : World) (qrCodeId userId : String) (now : Nat) (c : StoredDoc)
    (hup : w.remoteUp = true) (hev : w.eventRemoteUp = false)
    (hc : getDoc w.remote qrCodeId = some c) :
    ScanTracker.trackScan w qrCodeId userId now =
      (true,
        ScanTracker.storeScanEvent
          { w with
            remote := w.remote.map (fun d =>
              if d.id == qrCodeId then
                applyUpdateStored d
                  { scanCount := some (c.scanCount + 1), lastScanned := some now,
                    lastAccessed := some now } now
              else d) }
          (ScanTracker.mkScanEvent qrCodeId userId now)) := by
  unfold ScanTracker.trackScan QRCodeStorage.incrementScanCount
    QRCodeFirestore.incrementScanCount QRCodeFirestore.getQRCode
    QRCodeFirestore.updateQRCode ScanEventStorage.saveScanEvent
  simp [hup, hev, hc, fromFirestoreFormat]

theorem trackScanAll_inv (qrCodeId userId : String) :
    ∀ (times : List Nat) (w : World) (c : StoredDoc) (b : Bool),
      w.remoteUp = true → w.eventRemoteUp = false →
      getDoc w.remote qrCodeId = some c →
      (ScanTracker.getScanEventsLocalAll w userId).length ≤ 1000 →
      (times.foldl (ScanTracker.trackScanStep qrCodeId userId) (b, w)).1 = b ∧
      ∃ c2,
        getDoc (times.foldl (ScanTracker.trackScanStep qrCodeId userId) (b, w)).2.remote
            qrCodeId = some c2 ∧
        c2.scanCount = c.scanCount + times.length ∧
        ScanTracker.getScanEventsLocalAll
            (times.foldl (ScanTracker.trackScanStep qrCodeId userId) (b, w)).2 userId =
          (ScanTracker.getScanEventsLocalAll w userId ++
              times.map (fun t => ScanTracker.mkScanEvent qrCodeId userId t)).drop
            ((ScanTracker.getScanEventsLocalAll w userId ++
                times.map (fun t => ScanTracker.mkScanEvent qrCodeId userId t)).length - 1000) := by
  intro times
  induction times with
  | nil =>
      intro w c b hup hev hc hlen
      refine ⟨rfl, c, hc, by simp, ?_⟩
      simp only [List.map_nil, List.append_nil, List.foldl_nil]
      rw [show (ScanTracker.getScanEventsLocalAll w userId).length - 1000 = 0 by omega]
      simp
  | cons t ts ih =>
      intro w c b hup hev hc hlen
      have hstep := trackScan_step w qrCodeId userId t c hup hev hc
      simp only [List.foldl_cons, ScanTracker.trackScanStep, hstep, Bool.and_true]
      set wmid : World :=
        { w with
          remote := w.remote.map (fun d =>
            if d.id == qrCodeId then
              applyUpdateStored d
                { scanCount := some (c.scanCount + 1), lastScanned := some t,
                  lastAccessed := some t } t
            else d) } with hwmid
      set ev : ScanEvent := ScanTracker.mkScanEvent qrCodeId userId t with hevdef
      have hup1 : (ScanTracker.storeScanEvent wmid ev).remoteUp = true := hup
      have hev1 : (ScanTracker.storeScanEvent wmid ev).eventRemoteUp = false := hev
      have hc1 : getDoc (ScanTracker.storeScanEvent wmid ev).remote qrCodeId =
          some (applyUpdateStored c
            { scanCount := some (c.scanCount + 1), lastScanned := some t,
              lastAccessed := some t } t) :=
        getDoc_map_ite w.remote qrCodeId _ c (fun d => rfl) hc
      have hlog1 : ScanTracker.getScanEventsLocalAll (ScanTracker.storeScanEvent wmid ev) userId =
          (ScanTracker.getScanEventsLocalAll w userId ++ [ev]).drop
            ((ScanTracker.getScanEventsLocalAll w userId ++ [ev]).length - 1000) := by
        have hlog0 : ScanTracker.getScanEventsLocalAll wmid ev.userId =
            ScanTracker.getScanEventsLocalAll w userId := rfl
        have h := storeScanEvent_log wmid ev
        rw [hlog0] at h
        exact h
      have hlen1 : (ScanTracker.getScanEventsLocalAll (ScanTracker.storeScanEvent wmid ev)
          userId).length ≤ 1000 := by
        rw [hlog1]
        simp only [List.length_drop, List.length_append, List.length_cons, List.length_nil]
        omega
      obtain ⟨hb, c2, hc2, hcnt, hlogN⟩ :=
        ih (ScanTracker.storeScanEvent wmid ev) _ b hup1 hev1 hc1 hlen1
      refine ⟨hb, c2, hc2, ?_, ?_⟩
      · rw [hcnt]
        show c.scanCount + 1 + ts.length = c.scanCount + (ts.length + 1)
        omega
      · rw [hlogN, hlog1, drop_trim_append]
        simp only [List.map_cons, List.append_assoc, List.singleton_append]

/-- C5: starting from a reachable code store holding the entity with
`scanCount = 0`, an unreachable event store and an empty local event log,
all N `trackScan` calls succeed, the entity's `scanCount` ends at N, and the
user's local event log is exactly the last `min(N, 1000)` of the N events in
chronological order — the oldest entries are the ones evicted. -/
theorem trackScan_counts_and_ring_buffer (w : World) (qrCodeId userId : String)
    (times : List Nat) (c : StoredDoc)
    (hup : w.remoteUp = true) (hev : w.eventRemoteUp = false)
    (hc : getDoc w.remote qrCodeId = some c) (hc0 : c.scanCount = 0)
    (hlog : ScanTracker.getScanEventsLocalAll w userId = []) :
    (ScanTracker.trackScanAll w qrCodeId userId times).1 = true ∧
    (∃ c2,
      getDoc (ScanTracker.trackScanAll w qrCodeId userId times).2.remote qrCodeId = some c2 ∧
      c2.scanCount = times.length) ∧
    ScanTracker.getScanEventsLocalAll (ScanTracker.trackScanAll w qrCodeId userId times).2
        userId =
      (times.map (fun t => ScanTracker.mkScanEvent qrCodeId userId t)).drop
        (times.length - 1000) ∧
    (ScanTracker.getScanEventsLocalAll (ScanTracker.trackScanAll w qrCodeId userId times).2
        userId).length = min times.length 1000 := by
  obtain ⟨hb, c2, hc2, hcnt, hlogN⟩ :=
    trackScanAll_inv qrCodeId userId times w c true hup hev hc (by rw [hlog]; simp)
  have hlogN' : ScanTracker.getScanEventsLocalAll
      (ScanTracker.trackScanAll w qrCodeId userId times).2 userId =
      (times.map (fun t => ScanTracker.mkScanEvent qrCodeId userId t)).drop
        (times.length - 1000) := by
    rw [show ScanTracker.trackScanAll w qrCodeId userId times =
        times.foldl (ScanTracker.trackScanStep qrCodeId userId) (true, w) from rfl]
    rw [hlogN, hlog]
    simp [List.length_map]
  refine ⟨hb, ⟨c2, ?_, ?_⟩, hlogN', ?_⟩
  · exact hc2
  · rw [hcnt, hc0]
    omega
  · rw [hlogN']
    simp only [List.length_drop, List.length_map]
    omega

/-- Witness for C5 at `worldScan` with three scans. -/
theorem trackScan_counts_and_ring_buffer_witness :
    worldScan.remoteUp = true ∧ worldScan.eventRemoteUp = false ∧
    getDoc worldScan.remote "A" = some doc0 ∧ doc0.scanCount = 0 ∧
    ScanTracker.getScanEventsLocalAll worldScan "u1" = [] ∧
    ((ScanTracker.trackScanAll worldScan "A" "u1" [3, 5, 8]).1 = true ∧
    (∃ c2,
      getDoc (ScanTracker.trackScanAll worldScan "A" "u1" [3, 5, 8]).2.remote "A" = some c2 ∧
      c2.scanCount = [3, 5, 8].length) ∧
    ScanTracker.getScanEventsLocalAll (ScanTracker.trackScanAll worldScan "A" "u1" [3, 5, 8]).2
        "u1" =
      ([3, 5, 8].map (fun t => ScanTracker.mkScanEvent "A" "u1" t)).drop
        ([3, 5, 8].length - 1000) ∧
    (ScanTracker.getScanEventsLocalAll (ScanTracker.trackScanAll worldScan "A" "u1" [3, 5, 8]).2
        "u1").length = min [3, 5, 8].length 1000) :=
  ⟨rfl, rfl, by decide, rfl, rfl,
    trackScan_counts_and_ring_buffer worldScan "A" "u1" [3, 5, 8] doc0 rfl rfl (by decide)
      rfl rfl⟩

/-! ### C1 — migration idempotence -/

theorem migrate_no_cache (w : World) (u : String) (g : Nat → String) (n : Nat)
    (h : lookupKey w.localQR ("qr_codes_" ++ u) = none) :
    QRCodeFirestore.migrateFromLocalStorage w u g n = w := by
  unfold QRCodeFirestore.migrateFromLocalStorage
  rw [h]

theorem migrate_clears_key (w : World) (u : String) (g : Nat → String) (n : Nat)
    (codes : List SavedQRCode) (hup : w.remoteUp = true)
    (hl : lookupKey w.localQR ("qr_codes_" ++ u) = some codes) :
    lookupKey (QRCodeFirestore.migrateFromLocalStorage w u g n).localQR
      ("qr_codes_" ++ u) = none := by
  unfold QRCodeFirestore.migrateFromLocalStorage QRCodeFirestore.getUserQRCodes
  rw [hl]
  simp [hup, lookupKey_removeKey_self]

theorem migrateLoop_append (idGen : Nat → String) (now : Nat) (N : Nat)
    (hinj : ∀ i j, i < N → j < N → idGen i = idGen j → i = j) :
    ∀ (codes : List SavedQRCode) (k : Nat) (w : World),
      k + codes.length ≤ N →
      w.remoteUp = true →
      (∀ c ∈ w.remote, ∃ j, j < k ∧ c.id = idGen j) →
      (QRCodeFirestore.migrateLoop w codes [] idGen k now).remote.map contentOfDoc =
          w.remote.map contentOfDoc ++ codes.map contentOf ∧
      (∀ c ∈ (QRCodeFirestore.migrateLoop w codes [] idGen k now).remote,
          ∃ j, j < k + codes.length ∧ c.id = idGen j) ∧
      (QRCodeFirestore.migrateLoop w codes [] idGen k now).remoteUp = true := by
  intro codes
  induction codes with
  | nil =>
      intro k w _ hup hinv
      refine ⟨by simp [QRCodeFirestore.migrateLoop], ?_, hup⟩
      simpa using hinv
  | cons c rest ih =>
      intro k w hN hup hinv
      have hk : k < N := by
        simp only [List.length_cons] at hN
        omega
      have hany : (w.remote.any
          (fun d => d.id ==
            (toFirestoreFormat (mkSavedQRCode (QRCodeFirestore.draftOfCode c) (idGen k) now)).id)) =
          false := by
        rw [List.any_eq_false]
        intro d hd
        obtain ⟨j, hj, hdid⟩ := hinv d hd
        intro heq
        have hdk : d.id = idGen k := beq_iff_eq.mp heq
        have hjk : j = k := hinj j k (by omega) hk (by rw [← hdid, hdk])
        omega
      have hloopstep :
          QRCodeFirestore.migrateLoop w (c :: rest) [] idGen k now =
            QRCodeFirestore.migrateLoop
              { w with
                remote := w.remote ++
                  [toFirestoreFormat (mkSavedQRCode (QRCodeFirestore.draftOfCode c) (idGen k) now)] }
              rest [] idGen (k + 1) now := by
        simp only [QRCodeFirestore.migrateLoop, QRCodeFirestore.saveQRCode, hup, if_true,
          ite_true, putDoc, hany, List.contains_nil, Bool.false_eq_true, if_false]
      set saved := toFirestoreFormat (mkSavedQRCode (QRCodeFirestore.draftOfCode c) (idGen k) now)
        with hsaved
      have hinv' : ∀ c' ∈ w.remote ++ [saved], ∃ j, j < k + 1 ∧ c'.id = idGen j := by
        intro c' hc'
        rcases List.mem_append.mp hc' with hmem | hmem
        · obtain ⟨j, hj, he⟩ := hinv c' hmem
          exact ⟨j, by omega, he⟩
        · have hce : c' = saved := by simpa using hmem
          exact ⟨k, by omega, by rw [hce, hsaved]; rfl⟩
      have hN' : (k + 1) + rest.length ≤ N := by
        simp only [List.length_cons] at hN
        omega
      obtain ⟨h1, h2, h3⟩ :=
        ih (k + 1) { w with remote := w.remote ++ [saved] } hN' hup hinv'
      rw [hloopstep]
      refine ⟨?_, ?_, h3⟩
      · rw [h1]
        have hco : contentOfDoc saved = contentOf c := rfl
        simp [hco, List.map_append]
      · intro c' hc'
        obtain ⟨j, hj, he⟩ := h2 c' hc'
        refine ⟨j, ?_, he⟩
        simp only [List.length_cons]
        omega

/-- C1 counterexample: migrating a cache that holds exactly one code with id
`A` into an empty reachable remote yields exactly one remote copy, but its
id is freshly generated — the original id `A` does NOT exist remotely after
the first run, and the cache key is simply removed. This falsifies the
claim's conjunct that the re-run is a no-op "because the ids already exist
remotely". -/
theorem migrate_original_id_not_remote_counterexample :
    code0.id = "A" ∧
    lookupKey worldMig.localQR "qr_codes_u1" = some [code0] ∧
    (QRCodeFirestore.migrateFromLocalStorage worldMig "u1" (fun _ => "B") 5).remote.length = 1 ∧
    "A" ∉ (QRCodeFirestore.migrateFromLocalStorage worldMig "u1"
        (fun _ => "B") 5).remote.map (fun c => c.id) ∧
    lookupKey (QRCodeFirestore.migrateFromLocalStorage worldMig "u1"
        (fun _ => "B") 5).localQR "qr_codes_u1" = none := by decide

/-- C1 amended: over a cache-only dataset (reachable empty remote, cached
array present, pairwise-distinct generated ids), one migration run copies
exactly one remote entity per original cached entity (same content fields,
in order — but under fresh ids), removes the cache key, and a second run is
a no-op because the cache key is gone, not because the original ids exist
remotely. -/
theorem migrateFromLocalStorage_idempotent (w : World) (userId : String)
    (idGen g2 : Nat → String) (now n2 : Nat) (codes : List SavedQRCode)
    (hup : w.remoteUp = true)
    (hl : lookupKey w.localQR ("qr_codes_" ++ userId) = some codes)
    (hrem : w.remote = [])
    (hinj : ∀ i j, i < codes.length → j < codes.length → idGen i = idGen j → i = j) :
    (QRCodeFirestore.migrateFromLocalStorage
        (QRCodeFirestore.migrateFromLocalStorage w userId idGen now) userId g2 n2 =
      QRCodeFirestore.migrateFromLocalStorage w userId idGen now) ∧
    (QRCodeFirestore.migrateFromLocalStorage w userId idGen now).remote.map contentOfDoc =
      codes.map contentOf ∧
    lookupKey (QRCodeFirestore.migrateFromLocalStorage w userId idGen now).localQR
      ("qr_codes_" ++ userId) = none := by
  have hclear := migrate_clears_key w userId idGen now codes hup hl
  refine ⟨migrate_no_cache _ userId g2 n2 hclear, ?_, hclear⟩
  have hloop :=
    migrateLoop_append idGen now codes.length hinj codes 0 w (by omega) hup
      (by rw [hrem]; simp)
  have hmig : QRCodeFirestore.migrateFromLocalStorage w userId idGen now =
      { QRCodeFirestore.migrateLoop w codes [] idGen 0 now with
        localQR := removeKey (QRCodeFirestore.migrateLoop w codes [] idGen 0 now).localQR
          ("qr_codes_" ++ userId) } := by
    unfold QRCodeFirestore.migrateFromLocalStorage QRCodeFirestore.getUserQRCodes
    rw [hl]
    simp [hup, hrem, sortByUpdatedDesc]
  rw [hmig]
  show (QRCodeFirestore.migrateLoop w codes [] idGen 0 now).remote.map contentOfDoc =
    codes.map contentOf
  rw [hloop.1, hrem]
  simp

/-- Witness for C1's amended theorem at `worldMig` (one cached code, ids
generated as `M<k>`). -/
theorem migrateFromLocalStorage_idempotent_witness :
    worldMig.remoteUp = true ∧
    lookupKey worldMig.localQR ("qr_codes_" ++ "u1") = some [code0] ∧
    worldMig.remote = [] ∧
    ((QRCodeFirestore.migrateFromLocalStorage
        (QRCodeFirestore.migrateFromLocalStorage worldMig "u1" (fun _ => "M0") 5) "u1"
        (fun _ => "M9") 6 =
      QRCodeFirestore.migrateFromLocalStorage worldMig "u1" (fun _ => "M0") 5) ∧
    (QRCodeFirestore.migrateFromLocalStorage worldMig "u1"
        (fun _ => "M0") 5).remote.map contentOfDoc = [code0].map contentOf ∧
    lookupKey (QRCodeFirestore.migrateFromLocalStorage worldMig "u1"
        (fun _ => "M0") 5).localQR ("qr_codes_" ++ "u1") = none) :=
  ⟨rfl, by decide, rfl,
    migrateFromLocalStorage_idempotent worldMig "u1" (fun _ => "M0") (fun _ => "M9") 5 6
      [code0] rfl (by decide) rfl
      (fun i j hi hj _ => by simp at hi hj; omega)⟩

/-! ### C7 — import duplicate handling -/

theorem importLoop_invalid_step (w : World) (bad : ImportItem) (rest : List ImportItem)
    (E : List String) (userId : String) (saveGen : Nat → String) (k now succ : Nat)
    (errs : List String)
    (hbad : bad.name = "" ∨ bad.type = none ∨ bad.data = "" ∨ bad.config = none) :
    QRCodeStorage.importLoop w (bad :: rest) E userId saveGen k now succ errs =
      QRCodeStorage.importLoop w rest E userId saveGen k now succ
        (errs ++ [invalidMsg bad]) := by
  cases htype : bad.type with
  | none => simp [QRCodeStorage.importLoop, htype]
  | some t =>
      cases hcfg : bad.config with
      | none => simp [QRCodeStorage.importLoop, htype, hcfg]
      | some cfgv =>
          rcases hbad with hn | ht | hd | hc
          · simp [QRCodeStorage.importLoop, htype, hcfg, hn]
          · rw [htype] at ht; exact absurd ht (by simp)
          · simp [QRCodeStorage.importLoop, htype, hcfg, hd]
          · rw [hcfg] at hc; exact absurd hc (by simp)

theorem importLoop_dup_step (w : World) (item : ImportItem) (rest : List ImportItem)
    (E : List String) (userId : String) (saveGen : Nat → String) (k now succ : Nat)
    (errs : List String) (t : QRType) (cfg : QRConfig)
    (ht : item.type = some t) (hc : item.config = some cfg)
    (hname : item.name ≠ "") (hdata : item.data ≠ "")
    (hdup : identOf item.name t item.data ∈ E) :
    QRCodeStorage.importLoop w (item :: rest) E userId saveGen k now succ errs =
      QRCodeStorage.importLoop w rest E userId saveGen k now succ
        (errs ++ [dupMsg item.name]) := by
  have hcont : E.contains (identOf item.name t item.data) = true := by simpa using hdup
  simp [QRCodeStorage.importLoop, ht, hc, beq_false_of_ne hname, beq_false_of_ne hdata,
    hcont]
  intro h
  exact absurd hdup h

theorem importLoop_save_step (w : World) (item : ImportItem) (rest : List ImportItem)
    (E : List String) (userId : String) (saveGen : Nat → String) (k now succ : Nat)
    (errs : List String) (t : QRType) (cfg : QRConfig)
    (ht : item.type = some t) (hc : item.config = some cfg)
    (hname : item.name ≠ "") (hdata : item.data ≠ "")
    (hnov : identOf item.name t item.data ∉ E) :
    ∃ w1,
      QRCodeStorage.importLoop w (item :: rest) E userId saveGen k now succ errs =
        QRCodeStorage.importLoop w1 rest (identOf item.name t item.data :: E) userId saveGen
          (k + 1) now (succ + 1) errs := by
  have hcont : E.contains (identOf item.name t item.data) = false := by simpa using hnov
  refine ⟨(QRCodeStorage.saveQRCode w
      { name := item.name, type := t, data := item.data, config := cfg,
        fgColor := item.fgColor, bgColor := item.bgColor, userId := userId,
        isActive := some (item.isActive.getD true), tags := item.tags,
        description := item.description }
      (saveGen (2 * k)) (saveGen (2 * k + 1)) now).2, ?_⟩
  simp [QRCodeStorage.importLoop, ht, hc, beq_false_of_ne hname, beq_false_of_ne hdata,
    hcont]
  intro h
  exact absurd h hnov

/-- C7: importing an array of one item duplicating an existing
`(name, type, data)` triple (checked against the user's current codes) and
one novel valid item yields `success = 1` and a single error message saying
the duplicate already exists; and a per-item validation failure only
collects an error message and continues the batch (the loop proceeds with
the remaining items, success count untouched). -/
theorem importQRCodes_duplicate_and_validation (w : World) (userId : String)
    (migGen saveGen : Nat → String) (now : Nat) (d n : ImportItem)
    (td tn : QRType) (cd cn : QRConfig)
    (hdt : d.type = some td) (hdc : d.config = some cd)
    (hdn : d.name ≠ "") (hdd : d.data ≠ "")
    (hdup : identOf d.name td d.data ∈
      (QRCodeStorage.getUserQRCodes w userId migGen now).1.map
        (fun c => identOf c.name c.type c.data))
    (hnt : n.type = some tn) (hnc : n.config = some cn)
    (hnn : n.name ≠ "") (hnd : n.data ≠ "")
    (hnov : identOf n.name tn n.data ∉
      (QRCodeStorage.getUserQRCodes w userId migGen now).1.map
        (fun c => identOf c.name c.type c.data)) :
    (QRCodeStorage.importQRCodes w userId [d, n] migGen saveGen now).1 =
      (1, [dupMsg d.name]) ∧
    ∀ (w2 : World) (bad : ImportItem) (rest : List ImportItem) (E : List String)
      (k succ : Nat) (errs : List String),
      (bad.name = "" ∨ bad.type = none ∨ bad.data = "" ∨ bad.config = none) →
      QRCodeStorage.importLoop w2 (bad :: rest) E userId saveGen k now succ errs =
        QRCodeStorage.importLoop w2 rest E userId saveGen k now succ
          (errs ++ [invalidMsg bad]) := by
  constructor
  · unfold QRCodeStorage.importQRCodes
    rw [importLoop_dup_step _ d [n] _ userId saveGen 0 now 0 [] td cd hdt hdc hdn hdd hdup]
    obtain ⟨w1, hsave⟩ :=
      importLoop_save_step (QRCodeStorage.getUserQRCodes w userId migGen now).2 n []
        ((QRCodeStorage.getUserQRCodes w userId migGen now).1.map
          (fun c => identOf c.name c.type c.data))
        userId saveGen 0 now 0 [dupMsg d.name] tn cn hnt hnc hnn hnd hnov
    rw [show ([] : List String) ++ [dupMsg d.name] = [dupMsg d.name] from rfl, hsave]
    rfl
  · intro w2 bad rest E k succ errs hbad
    exact importLoop_invalid_step w2 bad rest E userId saveGen k now succ errs hbad

/-- A duplicate import item matching `code0`'s `(name, type, data)` triple. -/
def itemDup : ImportItem :=
  { name := "my-link"
    type := some QRType.url
    data := "https://example.com"
    config := some cfg0
    fgColor := "#000000"
    bgColor := "#ffffff"
    isActive := some true
    tags := none
    description := none }

/-- A novel valid import item. -/
def itemNew : ImportItem :=
  { name := "fresh"
    type := some QRType.text
    data := "hello"
    config := some cfg0
    fgColor := "#000000"
    bgColor := "#ffffff"
    isActive := none
    tags := none
    description := none }

/-- An invalid import item (missing `config`). -/
def itemBad : ImportItem :=
  { name := "broken"
    type := some QRType.url
    data := "x"
    config := none
    fgColor := "#000000"
    bgColor := "#ffffff"
    isActive := none
    tags := none
    description := none }

/-- Witness for C7 at `worldWithCode` (remote holds `code0`): importing
`[itemDup, itemNew]` yields one success and exactly the already-exists
message, and an invalid item is collected without aborting. -/
theorem importQRCodes_duplicate_and_validation_witness :
    itemDup.type = some QRType.url ∧ itemDup.config = some cfg0 ∧
    itemDup.name ≠ "" ∧ itemDup.data ≠ "" ∧
    identOf itemDup.name QRType.url itemDup.data ∈
      (QRCodeStorage.getUserQRCodes worldWithCode "u1" (fun _ => "G") 7).1.map
        (fun c => identOf c.name c.type c.data) ∧
    itemNew.type = some QRType.text ∧ itemNew.config = some cfg0 ∧
    itemNew.name ≠ "" ∧ itemNew.data ≠ "" ∧
    identOf itemNew.name QRType.text itemNew.data ∉
      (QRCodeStorage.getUserQRCodes worldWithCode "u1" (fun _ => "G") 7).1.map
        (fun c => identOf c.name c.type c.data) ∧
    (QRCodeStorage.importQRCodes worldWithCode "u1" [itemDup, itemNew]
        (fun _ => "G") (fun k => "S" ++ toString k) 7).1 = (1, [dupMsg itemDup.name]) ∧
    QRCodeStorage.importLoop worldWithCode [itemBad] [] "u1" (fun k => "S" ++ toString k)
        0 7 0 [] =
      QRCodeStorage.importLoop worldWithCode [] [] "u1" (fun k => "S" ++ toString k)
        0 7 0 ([] ++ [invalidMsg itemBad]) :=
  ⟨rfl, rfl, by decide, by decide, by decide, rfl, rfl, by decide, by decide, by decide,
    (importQRCodes_duplicate_and_validation worldWithCode "u1" (fun _ => "G")
      (fun k => "S" ++ toString k) 7 itemDup itemNew QRType.url QRType.text cfg0 cfg0
      rfl rfl (by decide) (by decide) (by decide) rfl rfl (by decide) (by decide)
      (by decide)).1,
    (importQRCodes_duplicate_and_validation worldWithCode "u1" (fun _ => "G")
      (fun k => "S" ++ toString k) 7 itemDup itemNew QRType.url QRType.text cfg0 cfg0
      rfl rfl (by decide) (by decide) (by decide) rfl rfl (by decide) (by decide)
      (by decide)).2 worldWithCode itemBad [] [] 0 0 [] (by decide)⟩

end UQRCODE

